import Mathlib

/-!
Verification of the SSD1351 OLED display driver (`src/display.rs`,
`src/mode/graphics.rs`).

The driver is embedded shallowly: the bus transport is modelled as a
function from write index to success/failure, every operation that touches
the bus is a state transformer over a state carrying the display fields,
the shadow buffer, the failure oracle, the number of writes attempted so
far, and the trace of attempted writes.  `Result<(), DisplayError>` is
modelled by `Outcome`, with a dedicated constructor for Rust panics
(`unwrap` on an `Err`, out-of-bounds indexing, out-of-range slicing),
which abort the operation without returning the error to the caller.
-/

namespace SSD1351

/-- The single opaque transport error of the `display_interface` crate
(spec section 7: "any bus write failed"). -/
inductive DisplayError where
  | busWriteError
  deriving DecidableEq, Repr

/-- Causes of a Rust panic in the driver code: `unwrap()` on an `Err`,
out-of-bounds slice indexing, and out-of-range slicing. -/
inductive PanicCause where
  | unwrapErr (e : DisplayError)
  | indexOutOfBounds
  | sliceOutOfRange
  deriving DecidableEq, Repr

/-- Result of running one driver operation: normal return `ok`, an error
returned to the caller via `?`, or a panic (which does not return). -/
inductive Outcome (α : Type) where
  | ok (a : α)
  | error (e : DisplayError)
  | panicked (c : PanicCause)
  deriving DecidableEq, Repr

/-- Modelled from the spec: `DisplaySize` lives in `properties.rs`, which is
not among the given source files.  Spec section 3 ("enumerated fixed panel
geometries") and section 8 (128×128 and 128×96 examples) fix the two
variants of the SSD1351 driver. -/
inductive DisplaySize where
  | display128x128
  | display128x96
  deriving DecidableEq, Repr

/-- Modelled from the spec: the immutable (width, height) pair of each
`DisplaySize` variant, in physical pixels. -/
def DisplaySize.dimensions : DisplaySize → Nat × Nat
  | .display128x128 => (128, 128)
  | .display128x96 => (128, 96)

/-- Modelled from the spec: `DisplayRotation` from `properties.rs`, the four
discrete rotation states. -/
inductive DisplayRotation where
  | Rotate0
  | Rotate90
  | Rotate180
  | Rotate270
  deriving DecidableEq, Repr

/-- Modelled from the spec: the tagged commands of `command.rs` (not among
the given source files), one constructor per variant used by `display.rs`,
carrying the raw parameter values.  Wire encoding (opcode byte + parameter
bytes) is irrelevant to the claims, which are stated at command
granularity. -/
inductive Command where
  | CommandLock (v : Nat)
  | DisplayOn (enable : Bool)
  | ClockDiv (v : Nat)
  | MuxRatio (v : Nat)
  | DisplayOffset (v : Nat)
  | StartLine (v : Nat)
  | SetGpio (v : Nat)
  | FunctionSelect (v : Nat)
  | SetVsl
  | Contrast (v : Nat)
  | ContrastCurrent (v : Nat)
  | PreCharge (v : Nat)
  | PreCharge2 (v : Nat)
  | Vcomh (v : Nat)
  | Invert (b : Bool)
  | SetRemap (a b c : Bool)
  | Column (s e : Nat)
  | Row (s e : Nat)
  | WriteRam
  deriving DecidableEq, Repr

/-- One attempted bus write: either a command (`Command::send`) or a raw
data write (`iface.send_data`). -/
inductive BusWrite where
  | cmd (c : Command)
  | data (bytes : List Nat)
  deriving DecidableEq, Repr

/-- The pure fields of `Display<DI>` (`display.rs` lines 13-17): stored
size and rotation.  The bus handle lives in the execution state. -/
structure Display where
  display_size : DisplaySize
  display_rotation : DisplayRotation
  deriving DecidableEq, Repr

/-- Structure `GraphicsMode<DI>` with the `buffered` feature: a `Display` plus the
shadow buffer (a byte sequence). -/
structure GraphicsMode where
  display : Display
  buffer : List Nat
  deriving DecidableEq, Repr

/-- Constructor `GraphicsMode::new` (buffered, `graphics.rs` lines 33-36): stores the
caller-supplied display and buffer; performs no check on the buffer. -/
def GraphicsMode.new (display : Display) (buffer : List Nat) : GraphicsMode :=
  { display := display, buffer := buffer }

/-- Execution state: the driver object plus the bus model.  `fails i`
tells whether the i-th bus write (counted from the start of the run)
fails; `count` is the number of writes attempted so far; `trace` the list
of attempted writes in order. -/
structure St where
  gm : GraphicsMode
  fails : Nat → Bool
  count : Nat
  trace : List BusWrite

/-- A driver computation: state transformer returning an `Outcome`. -/
def M (α : Type) : Type := St → Outcome α × St

/-- Pure computation (Rust `Ok(x)`). -/
def pureM {α : Type} (a : α) : M α := fun s => (.ok a, s)

/-- Sequencing with `?`-propagation: errors and panics short-circuit. -/
def bindM {α β : Type} (m : M α) (f : α → M β) : M β := fun s =>
  match m s with
  | (.ok a, s') => f a s'
  | (.error e, s') => (.error e, s')
  | (.panicked c, s') => (.panicked c, s')

/-- Rust `.unwrap()`: converts a returned error into a panic; `ok` and existing
panics pass through. -/
def unwrapM {α : Type} (m : M α) : M α := fun s =>
  match m s with
  | (.error e, s') => (.panicked (.unwrapErr e), s')
  | r => r

/-- State after attempting one bus write. -/
def addWrite (s : St) (w : BusWrite) : St :=
  { s with count := s.count + 1, trace := s.trace ++ [w] }

/-- State after attempting a list of bus writes. -/
def addWrites (s : St) (ws : List BusWrite) : St :=
  { s with count := s.count + ws.length, trace := s.trace ++ ws }

/-- Attempt one bus write: it is recorded in the trace, and fails exactly
when the bus model says so. -/
def attempt (w : BusWrite) : M Unit := fun s =>
  if s.fails s.count then (.error .busWriteError, addWrite s w)
  else (.ok (), addWrite s w)

/-- Method `Command::send`: transmit one command over the bus. -/
def Command.send (c : Command) : M Unit := attempt (.cmd c)

/-- Call `iface.send_data(DataFormat::U8(bytes))`. -/
def send_data (bytes : List Nat) : M Unit := attempt (.data bytes)

/-- Read `self.display_size`. -/
def getSize : M DisplaySize := fun s => (.ok s.gm.display.display_size, s)

/-- Read `self.display_rotation`. -/
def getRotation : M DisplayRotation := fun s => (.ok s.gm.display.display_rotation, s)

/-- Read `self.buffer`. -/
def getBuffer : M (List Nat) := fun s => (.ok s.gm.buffer, s)

/-- Write the `display_rotation` field (`self.display_rotation = r`). -/
def setRotationField (r : DisplayRotation) : M Unit := fun s =>
  (.ok (), { s with gm.display.display_rotation := r })

/-- Send a fixed list of commands in order, `?`-propagating each failure.
Used to transcribe straight-line runs of `Command::…​.send(…)?` lines. -/
def sendSeq : List Command → M Unit
  | [] => pureM ()
  | c :: cs => bindM (Command.send c) fun _ => sendSeq cs

/-- Method `Display::set_draw_area` (`display.rs` lines 91-104): column range,
row range (end bounds via `saturating_sub(1)`, which is exactly
truncated `Nat` subtraction), then `WriteRam`. -/
def Display.set_draw_area (start finish : Nat × Nat) : M Unit :=
  bindM (Command.send (.Column start.1 (finish.1 - 1))) fun _ =>
  bindM (Command.send (.Row start.2 (finish.2 - 1))) fun _ =>
  Command.send .WriteRam

/-- Method `Display::draw` (`display.rs` lines 109-112). -/
def Display.draw (buffer : List Nat) : M Unit :=
  send_data buffer

/-- The body of `Display::clear`'s write loop: `h*w` iterations of
`send_data [0x00, 0x00]`, each `?`-propagated. -/
def clearLoop : Nat → M Unit
  | 0 => pureM ()
  | n + 1 => bindM (send_data [0x00, 0x00]) fun _ => clearLoop n

/-- Method `Display::clear` (`display.rs` lines 78-86): full-panel draw area then
`height*width` black pixel pairs. -/
def Display.clear : M Unit :=
  bindM getSize fun sz =>
  bindM (Display.set_draw_area (0, 0) (sz.dimensions.1, sz.dimensions.2)) fun _ =>
  clearLoop (sz.dimensions.2 * sz.dimensions.1)

/-- Method `Display::get_dimensions` (`display.rs` lines 146-153): pure function
of the stored size and rotation. -/
def Display.get_dimensions (d : Display) : Nat × Nat :=
  let wh := d.display_size.dimensions
  match d.display_rotation with
  | .Rotate0 | .Rotate180 => (wh.1, wh.2)
  | .Rotate90 | .Rotate270 => (wh.2, wh.1)

/-- Method `Display::get_rotation` (`display.rs` lines 156-158). -/
def Display.get_rotation (d : Display) : DisplayRotation :=
  d.display_rotation

/-- Method `Display::set_rotation` (`display.rs` lines 161-191): store the new
rotation, then send the remap command selected by the 4-way match. -/
def Display.set_rotation (r : DisplayRotation) : M Unit :=
  bindM (setRotationField r) fun _ =>
    match r with
    | .Rotate0 => Command.send (.SetRemap false false true)
    | .Rotate90 => Command.send (.SetRemap true true true)
    | .Rotate180 => Command.send (.SetRemap false true false)
    | .Rotate270 => Command.send (.SetRemap true false false)

/-- The remap command `Display::set_rotation` sends for each rotation
(the 4-entry lookup table). -/
def remapCommand : DisplayRotation → Command
  | .Rotate0 => .SetRemap false false true
  | .Rotate90 => .SetRemap true true true
  | .Rotate180 => .SetRemap false true false
  | .Rotate270 => .SetRemap true false false

/-- The 16 straight-line bring-up commands of `Display::init`
(`display.rs` lines 47-66), in source order. -/
def initCommands (display_height : Nat) : List Command :=
  [ .CommandLock 0x12, .CommandLock 0xB1, .DisplayOn false, .ClockDiv 0xF1,
    .MuxRatio (display_height - 1), .DisplayOffset 0, .StartLine 0,
    .SetGpio 0x00, .FunctionSelect 0x01, .SetVsl, .Contrast 0x8F,
    .ContrastCurrent 0x0F, .PreCharge 0x32, .PreCharge2 0x01,
    .Vcomh 0x05, .Invert false ]

/-- The tail of `Display::init` after the 16 straight-line commands:
`self.set_rotation(self.display_rotation).await.unwrap()`, then
`self.clear().await?`, then `DisplayOn(true)?` (`display.rs` lines
68-74). -/
def initTail : M Unit :=
  bindM getRotation fun rot =>
  bindM (unwrapM (Display.set_rotation rot)) fun _ =>
  bindM Display.clear fun _ =>
  Command.send (.DisplayOn true)

/-- Method `Display::init` (`display.rs` lines 43-75): the 16 bring-up commands,
then `set_rotation(self.display_rotation).unwrap()`, then `clear()?`,
then `DisplayOn(true)?`. -/
def Display.init : M Unit :=
  bindM getSize fun sz =>
  bindM (sendSeq (initCommands sz.dimensions.2)) fun _ =>
  initTail

/-- High byte of a 16-bit color on the wire: `(color >> 8) as u8`. -/
def hiByte (color : Nat) : Nat := color / 256 % 256

/-- Low byte of a 16-bit color on the wire: `color as u8`. -/
def loByte (color : Nat) : Nat := color % 256

/-- Rust `x as u8` for an unsigned value. -/
def u8OfNat (x : Nat) : Nat := x % 256

/-- Rust `x as u8` for an `i32` value (two's-complement truncation). -/
def u8OfI32 (x : Int) : Nat := (x % 256).toNat

/-- Rust `x as usize` for an `i32` value (sign-extend, reinterpret). -/
def usizeOfI32 (x : Int) : Nat := (x % (2 ^ 64 : Int)).toNat

/-- Type `embedded_graphics_core::geometry::Point` (external collaborator):
`i32` coordinates. -/
structure Point where
  x : Int
  y : Int
  deriving DecidableEq, Repr

/-- Type `embedded_graphics_core::geometry::Size` (external collaborator):
`u32` extents. -/
structure Size where
  width : Nat
  height : Nat
  deriving DecidableEq, Repr

/-- Type `embedded_graphics_core::primitives::Rectangle` (external
collaborator). -/
structure Rectangle where
  top_left : Point
  size : Size
  deriving DecidableEq, Repr

/-- Method `Rectangle::bottom_right` (external collaborator, documented
semantics): `None` for a zero-sized rectangle, otherwise
`top_left + size - (1, 1)`. -/
def Rectangle.bottom_right (r : Rectangle) : Option Point :=
  if 0 < r.size.width ∧ 0 < r.size.height then
    some ⟨r.top_left.x + ((r.size.width - 1 : Nat) : Int),
          r.top_left.y + ((r.size.height - 1 : Nat) : Int)⟩
  else none

/-- Rust slicing `&b[start..stop]`: `none` models the panic when the range
does not lie inside the sequence. -/
def sliceOrNone (b : List Nat) (start stop : Nat) : Option (List Nat) :=
  if start ≤ stop ∧ stop ≤ b.length then some ((b.drop start).take (stop - start))
  else none

/-- Buffered `GraphicsMode::set_pixel` (`graphics.rs` lines 128-132):
writes the two big-endian color bytes into the shadow buffer at
`(y * 128 + x) * 2` (the panel width is hard-coded as `128usize` in the
source); an out-of-bounds index panics, performing the writes that
preceded the panic. -/
def GraphicsMode.set_pixel (x y color : Nat) : M Unit := fun s =>
  if (y * 128 + x) * 2 < s.gm.buffer.length then
    if (y * 128 + x) * 2 + 1 <
        (s.gm.buffer.set ((y * 128 + x) * 2) (hiByte color)).length then
      (.ok (), { s with gm.buffer :=
        ((s.gm.buffer.set ((y * 128 + x) * 2) (hiByte color)).set
          ((y * 128 + x) * 2 + 1) (loByte color)) })
    else (.panicked .indexOutOfBounds,
      { s with gm.buffer := s.gm.buffer.set ((y * 128 + x) * 2) (hiByte color) })
  else (.panicked .indexOutOfBounds, s)

/-- The rotation-dependent coordinate swap of the unbuffered `set_pixel`
(`graphics.rs` lines 111-114): identity for 0°/180°, swap for 90°/270°. -/
def rotCoords (rot : DisplayRotation) (x y : Nat) : Nat × Nat :=
  match rot with
  | .Rotate0 | .Rotate180 => (x, y)
  | .Rotate90 | .Rotate270 => (y, x)

/-- Unbuffered `GraphicsMode::set_pixel` (`graphics.rs` lines 108-123):
rotation-dependent coordinate swap, then `set_draw_area(..).unwrap()` from
the transformed coordinate to the full panel corner, then a 2-byte color
write, also unwrapped. -/
def GraphicsMode.set_pixel_unbuffered (x y color : Nat) : M Unit :=
  bindM getSize fun sz =>
  bindM getRotation fun rot =>
  bindM (unwrapM (Display.set_draw_area
      (u8OfNat (rotCoords rot x y).1, u8OfNat (rotCoords rot x y).2)
      (sz.dimensions.1, sz.dimensions.2))) fun _ =>
  unwrapM (Display.draw [hiByte color, loByte color])

/-- Buffered `GraphicsMode::flush` (`graphics.rs` lines 135-142):
full-panel draw area then the whole shadow buffer, both `unwrap`-ed. -/
def GraphicsMode.flush : M Unit :=
  bindM getSize fun sz =>
  bindM (unwrapM (Display.set_draw_area (0, 0) (sz.dimensions.1, sz.dimensions.2))) fun _ =>
  bindM getBuffer fun buffer =>
  unwrapM (Display.draw buffer)

/-- Buffered `GraphicsMode::clear` (`graphics.rs` lines 70-77): zero every
buffer byte, then flush when requested. -/
def GraphicsMode.clear (doFlush : Bool) : M Unit :=
  bindM (fun s => (.ok (), { s with gm.buffer := s.gm.buffer.map (fun _ => 0) })) fun _ =>
  if doFlush then GraphicsMode.flush else pureM ()

/-- One iteration of the `flush_area` row loop (`graphics.rs` lines
151-164): draw area for the single row (with the source's `u8` casts and
wrapping `+ 1`), then the row's byte slice from the shadow buffer. -/
def flushAreaRow (area : Rectangle) (br : Point) (w : Nat) (row : Nat) : M Unit :=
  let row_index : Nat := usizeOfI32 area.top_left.y + row
  bindM (unwrapM (Display.set_draw_area
      (u8OfI32 area.top_left.x, u8OfNat row_index)
      ((u8OfI32 br.x + 1) % 256, (u8OfNat row_index + 1) % 256))) fun _ =>
  bindM getBuffer fun buffer =>
  let row_start := (row_index * w + usizeOfI32 area.top_left.x) * 2
  match sliceOrNone buffer row_start (row_start + 2 * area.size.width) with
  | some row_in_buffer => unwrapM (Display.draw row_in_buffer)
  | none => fun s => (.panicked .sliceOutOfRange, s)

/-- The `for row in 0..num_rows` loop of `flush_area`: `row` is the
current iteration index, the second argument the remaining count. -/
def flushAreaLoop (area : Rectangle) (br : Point) (w : Nat) : Nat → Nat → M Unit
  | _, 0 => pureM ()
  | row, rem + 1 =>
    bindM (flushAreaRow area br w row) fun _ => flushAreaLoop area br w (row + 1) rem

/-- Buffered `GraphicsMode::flush_area` (`graphics.rs` lines 145-165). -/
def GraphicsMode.flush_area (area : Rectangle) : M Unit :=
  bindM getSize fun sz =>
  flushAreaLoop area (area.bottom_right.getD area.top_left) sz.dimensions.1
    0 area.size.height

/-- Impl `OriginDimensions::size` for `GraphicsMode` (`graphics.rs` lines
260-265): returns `self.display.get_size().dimensions()` — the raw panel
geometry, not `get_dimensions()`. -/
def GraphicsMode.size (g : GraphicsMode) : Nat × Nat :=
  g.display.display_size.dimensions

/-- Method `CompressableDisplay::drop_buffer` (`graphics.rs` lines 316-319):
replaces the buffer reference with an empty slice. -/
def GraphicsMode.drop_buffer (g : GraphicsMode) : GraphicsMode :=
  { g with buffer := [] }

/-! ## Specification of the write traces -/

/-- The three commands `Display::set_draw_area` attempts. -/
def sdaWrites (start finish : Nat × Nat) : List BusWrite :=
  [.cmd (.Column start.1 (finish.1 - 1)), .cmd (.Row start.2 (finish.2 - 1)), .cmd .WriteRam]

/-- The writes `Display::clear` attempts on a `w × h` panel. -/
def clearWrites (w h : Nat) : List BusWrite :=
  sdaWrites (0, 0) (w, h) ++ List.replicate (h * w) (.data [0x00, 0x00])

/-- The writes buffered `GraphicsMode::flush` attempts. -/
def flushWrites (w h : Nat) (buffer : List Nat) : List BusWrite :=
  sdaWrites (0, 0) (w, h) ++ [.data buffer]

/-- No failure among the `n` bus writes starting at global index `c`. -/
def noFail (f : Nat → Bool) (c n : Nat) : Prop :=
  ∀ i, i < n → f (c + i) = false

/-- The first failing bus write at or after global index `c` is `c + j`. -/
def firstFail (f : Nat → Bool) (c j : Nat) : Prop :=
  (∀ i, i < j → f (c + i) = false) ∧ f (c + j) = true

/-! ## Monad and state lemmas -/

theorem addWrites_fails (s : St) (ws : List BusWrite) : (addWrites s ws).fails = s.fails := rfl

theorem addWrites_count (s : St) (ws : List BusWrite) :
    (addWrites s ws).count = s.count + ws.length := rfl

theorem addWrites_gm (s : St) (ws : List BusWrite) : (addWrites s ws).gm = s.gm := rfl

theorem addWrites_trace (s : St) (ws : List BusWrite) :
    (addWrites s ws).trace = s.trace ++ ws := rfl

theorem addWrite_eq (s : St) (w : BusWrite) : addWrite s w = addWrites s [w] := rfl

theorem addWrites_nil (s : St) : addWrites s [] = s := by
  cases s
  simp [addWrites]

theorem addWrites_addWrites (s : St) (l₁ l₂ : List BusWrite) :
    addWrites (addWrites s l₁) l₂ = addWrites s (l₁ ++ l₂) := by
  cases s
  simp [addWrites, Nat.add_assoc]

theorem bindM_ok {α β : Type} {m : M α} {s s' : St} {a : α} (f : α → M β)
    (h : m s = (.ok a, s')) : bindM m f s = f a s' := by
  simp [bindM, h]

theorem bindM_error {α β : Type} {m : M α} {s s' : St} {e : DisplayError} (f : α → M β)
    (h : m s = (.error e, s')) : bindM m f s = (.error e, s') := by
  simp [bindM, h]

theorem bindM_panicked {α β : Type} {m : M α} {s s' : St} {c : PanicCause} (f : α → M β)
    (h : m s = (.panicked c, s')) : bindM m f s = (.panicked c, s') := by
  simp [bindM, h]

theorem unwrapM_ok {α : Type} {m : M α} {s s' : St} {a : α}
    (h : m s = (.ok a, s')) : unwrapM m s = (.ok a, s') := by
  simp [unwrapM, h]

theorem unwrapM_error {α : Type} {m : M α} {s s' : St} {e : DisplayError}
    (h : m s = (.error e, s')) : unwrapM m s = (.panicked (.unwrapErr e), s') := by
  simp [unwrapM, h]

theorem unwrapM_panicked {α : Type} {m : M α} {s s' : St} {c : PanicCause}
    (h : m s = (.panicked c, s')) : unwrapM m s = (.panicked c, s') := by
  simp [unwrapM, h]

theorem attempt_ok {s : St} (w : BusWrite) (h : s.fails s.count = false) :
    attempt w s = (.ok (), addWrite s w) := by
  simp [attempt, h]

theorem attempt_fail {s : St} (w : BusWrite) (h : s.fails s.count = true) :
    attempt w s = (.error .busWriteError, addWrite s w) := by
  simp [attempt, h]

theorem noFail_mono {f : Nat → Bool} {c m n : Nat} (h : noFail f c n) (hmn : m ≤ n) :
    noFail f c m :=
  fun i hi => h i (lt_of_lt_of_le hi hmn)

theorem noFail_shift {f : Nat → Bool} {c k n : Nat} (h : noFail f c (k + n)) :
    noFail f (c + k) n := by
  intro i hi
  rw [Nat.add_assoc]
  exact h (k + i) (by omega)

theorem firstFail_shift {f : Nat → Bool} {c k j : Nat} (h : firstFail f c (k + j)) :
    firstFail f (c + k) j := by
  constructor
  · intro i hi
    rw [Nat.add_assoc]
    exact h.1 (k + i) (by omega)
  · rw [Nat.add_assoc]
    exact h.2

theorem firstFail_noFail {f : Nat → Bool} {c j : Nat} (h : firstFail f c j) :
    noFail f c j := h.1

/-! ## Trace characterization of the straight-line helpers -/

theorem sendSeq_ok (cs : List Command) : ∀ s : St, noFail s.fails s.count cs.length →
    sendSeq cs s = (.ok (), addWrites s (cs.map .cmd)) := by
  induction cs with
  | nil =>
    intro s _
    simp [sendSeq, pureM, addWrites_nil]
  | cons c cs ih =>
    intro s h
    have h0 : s.fails s.count = false := by simpa using h 0 (by simp)
    have hsend : Command.send c s = (.ok (), addWrite s (.cmd c)) := attempt_ok _ h0
    rw [sendSeq, bindM_ok _ hsend, ih _ (by
      intro i hi
      show s.fails (s.count + 1 + i) = false
      rw [Nat.add_assoc]
      exact h (1 + i) (by simp only [List.length_cons]; omega)),
      addWrite_eq, addWrites_addWrites]
    simp

theorem sendSeq_fail (cs : List Command) : ∀ (s : St) (j : Nat), j < cs.length →
    firstFail s.fails s.count j →
    sendSeq cs s = (.error .busWriteError, addWrites s ((cs.take (j + 1)).map .cmd)) := by
  induction cs with
  | nil =>
    intro s j hj _
    simp at hj
  | cons c cs ih =>
    intro s j hj hf
    cases j with
    | zero =>
      have h0 : s.fails s.count = true := by simpa using hf.2
      have hsend : Command.send c s = (.error .busWriteError, addWrite s (.cmd c)) :=
        attempt_fail _ h0
      rw [sendSeq, bindM_error _ hsend]
      simp [addWrite_eq]
    | succ j =>
      have h0 : s.fails s.count = false := by simpa using hf.1 0 (by omega)
      have hsend : Command.send c s = (.ok (), addWrite s (.cmd c)) := attempt_ok _ h0
      have hf1 : firstFail s.fails s.count (1 + j) := by rwa [Nat.add_comm 1 j]
      have hf' : firstFail (addWrite s (.cmd c)).fails (addWrite s (.cmd c)).count j := by
        have := firstFail_shift (k := 1) (j := j) hf1
        simpa [addWrite_eq, addWrites_fails, addWrites_count] using this
      rw [sendSeq, bindM_ok _ hsend, ih _ j (by simpa using Nat.lt_of_succ_lt_succ hj) hf',
        addWrite_eq, addWrites_addWrites]
      simp

theorem clearLoop_ok (n : Nat) : ∀ s : St, noFail s.fails s.count n →
    clearLoop n s = (.ok (), addWrites s (List.replicate n (.data [0x00, 0x00]))) := by
  induction n with
  | zero =>
    intro s _
    simp [clearLoop, pureM, addWrites_nil]
  | succ n ih =>
    intro s h
    have h0 : s.fails s.count = false := by simpa using h 0 (by omega)
    have hsend : send_data [0x00, 0x00] s = (.ok (), addWrite s (.data [0x00, 0x00])) :=
      attempt_ok _ h0
    rw [clearLoop, bindM_ok _ hsend, ih _ (by
      intro i hi
      show s.fails (s.count + 1 + i) = false
      rw [Nat.add_assoc]
      exact h (1 + i) (by omega)),
      addWrite_eq, addWrites_addWrites]
    simp [List.replicate_succ]

theorem clearLoop_fail (n : Nat) : ∀ (s : St) (j : Nat), j < n →
    firstFail s.fails s.count j →
    clearLoop n s =
      (.error .busWriteError, addWrites s (List.replicate (j + 1) (.data [0x00, 0x00]))) := by
  induction n with
  | zero =>
    intro s j hj _
    omega
  | succ n ih =>
    intro s j hj hf
    cases j with
    | zero =>
      have h0 : s.fails s.count = true := by simpa using hf.2
      have hsend : send_data [0x00, 0x00] s =
          (.error .busWriteError, addWrite s (.data [0x00, 0x00])) := attempt_fail _ h0
      rw [clearLoop, bindM_error _ hsend]
      simp [addWrite_eq]
    | succ j =>
      have h0 : s.fails s.count = false := by simpa using hf.1 0 (by omega)
      have hsend : send_data [0x00, 0x00] s = (.ok (), addWrite s (.data [0x00, 0x00])) :=
        attempt_ok _ h0
      have hf1 : firstFail s.fails s.count (1 + j) := by rwa [Nat.add_comm 1 j]
      have hf' : firstFail (addWrite s (.data [0x00, 0x00])).fails
          (addWrite s (.data [0x00, 0x00])).count j := by
        have := firstFail_shift (k := 1) (j := j) hf1
        simpa [addWrite_eq, addWrites_fails, addWrites_count] using this
      rw [clearLoop, bindM_ok _ hsend, ih _ j (by omega) hf', addWrite_eq, addWrites_addWrites]
      simp [List.replicate_succ]

theorem bindM_pure_unit (m : M Unit) : bindM m (fun _ => pureM ()) = m := by
  funext s
  simp only [bindM]
  rcases hms : m s with ⟨o, s'⟩
  cases o with
  | ok a =>
    cases a
    rfl
  | error e => rfl
  | panicked c => rfl

theorem set_draw_area_eq (a b : Nat × Nat) :
    Display.set_draw_area a b =
      sendSeq [.Column a.1 (b.1 - 1), .Row a.2 (b.2 - 1), .WriteRam] := by
  simp only [Display.set_draw_area, sendSeq, bindM_pure_unit]

theorem sdaWrites_eq (a b : Nat × Nat) :
    sdaWrites a b =
      ([Command.Column a.1 (b.1 - 1), .Row a.2 (b.2 - 1), .WriteRam]).map .cmd := rfl

theorem set_draw_area_ok {s : St} (a b : Nat × Nat) (h : noFail s.fails s.count 3) :
    Display.set_draw_area a b s = (.ok (), addWrites s (sdaWrites a b)) := by
  rw [set_draw_area_eq, sdaWrites_eq]
  exact sendSeq_ok _ s h

theorem set_draw_area_fail {s : St} (a b : Nat × Nat) {j : Nat} (hj : j < 3)
    (hf : firstFail s.fails s.count j) :
    Display.set_draw_area a b s =
      (.error .busWriteError, addWrites s ((sdaWrites a b).take (j + 1))) := by
  rw [set_draw_area_eq, sdaWrites_eq, ← List.map_take]
  exact sendSeq_fail _ s j hj hf

theorem set_rotation_ok {s : St} (r : DisplayRotation) (h : s.fails s.count = false) :
    Display.set_rotation r s =
      (.ok (), addWrite { s with gm.display.display_rotation := r }
        (.cmd (remapCommand r))) := by
  cases r <;>
    simp [Display.set_rotation, setRotationField, bindM, remapCommand, Command.send,
      attempt, h]

theorem set_rotation_fail {s : St} (r : DisplayRotation) (h : s.fails s.count = true) :
    Display.set_rotation r s =
      (.error .busWriteError, addWrite { s with gm.display.display_rotation := r }
        (.cmd (remapCommand r))) := by
  cases r <;>
    simp [Display.set_rotation, setRotationField, bindM, remapCommand, Command.send,
      attempt, h]

theorem setRot_self (s : St) :
    { s with gm.display.display_rotation := s.gm.display.display_rotation } = s := by
  rcases s with ⟨⟨⟨sz, rot⟩, buf⟩, f, c, t⟩
  rfl

theorem getSize_run (s : St) : getSize s = (.ok s.gm.display.display_size, s) := rfl

theorem getRotation_run (s : St) :
    getRotation s = (.ok s.gm.display.display_rotation, s) := rfl

theorem getBuffer_run (s : St) : getBuffer s = (.ok s.gm.buffer, s) := rfl

theorem clearWrites_length (w h : Nat) : (clearWrites w h).length = 3 + h * w := by
  simp [clearWrites, sdaWrites]
  omega

theorem clear_ok {s : St} {w h : Nat}
    (hwh : s.gm.display.display_size.dimensions = (w, h))
    (hnf : noFail s.fails s.count (3 + h * w)) :
    Display.clear s = (.ok (), addWrites s (clearWrites w h)) := by
  have e : Display.clear s =
      (bindM (Display.set_draw_area (0, 0) (w, h)) fun _ => clearLoop (h * w)) s := by
    show (bindM (Display.set_draw_area (0, 0)
        (s.gm.display.display_size.dimensions.1, s.gm.display.display_size.dimensions.2))
      fun _ => clearLoop
        (s.gm.display.display_size.dimensions.2 * s.gm.display.display_size.dimensions.1)) s = _
    rw [hwh]
  rw [e, bindM_ok _ (set_draw_area_ok _ _ (noFail_mono hnf (by omega)))]
  show clearLoop (h * w) (addWrites s (sdaWrites (0, 0) (w, h))) = _
  rw [clearLoop_ok _ _ (by exact noFail_shift (k := 3) hnf), addWrites_addWrites]
  rfl

theorem clear_fail {s : St} {w h j : Nat}
    (hwh : s.gm.display.display_size.dimensions = (w, h))
    (hj : j < 3 + h * w) (hf : firstFail s.fails s.count j) :
    Display.clear s =
      (.error .busWriteError, addWrites s ((clearWrites w h).take (j + 1))) := by
  have e : Display.clear s =
      (bindM (Display.set_draw_area (0, 0) (w, h)) fun _ => clearLoop (h * w)) s := by
    show (bindM (Display.set_draw_area (0, 0)
        (s.gm.display.display_size.dimensions.1, s.gm.display.display_size.dimensions.2))
      fun _ => clearLoop
        (s.gm.display.display_size.dimensions.2 * s.gm.display.display_size.dimensions.1)) s = _
    rw [hwh]
  rcases Nat.lt_or_ge j 3 with h3 | h3
  · rw [e, bindM_error _ (set_draw_area_fail _ _ h3 hf)]
    simp only [clearWrites]
    rw [List.take_append_of_le_length (by simp [sdaWrites]; omega)]
  · obtain ⟨j', rfl⟩ : ∃ j', j = 3 + j' := ⟨j - 3, by omega⟩
    rw [e, bindM_ok _ (set_draw_area_ok _ _ (noFail_mono (firstFail_noFail hf) (by omega)))]
    show clearLoop (h * w) (addWrites s (sdaWrites (0, 0) (w, h))) = _
    rw [clearLoop_fail _ _ j' (by omega) (by exact firstFail_shift (k := 3) hf),
      addWrites_addWrites]
    simp only [clearWrites]
    rw [show (3 : Nat) + j' + 1 = (sdaWrites (0, 0) (w, h)).length + (j' + 1) from by
      simp [sdaWrites]
      omega]
    rw [List.take_append, List.take_replicate, Nat.min_eq_left (by omega)]

theorem initCommands_length (x : Nat) : (initCommands x).length = 16 := rfl

/-- The writes a run of `Display::init` attempts on a `w × h` panel whose
stored rotation is `rot`, in order. -/
def initWrites (w h : Nat) (rot : DisplayRotation) : List BusWrite :=
  (initCommands h).map .cmd ++ [.cmd (remapCommand rot)] ++
    clearWrites w h ++ [.cmd (.DisplayOn true)]

/-- The tail of `initWrites` after the 16 straight-line commands. -/
def initTailWrites (w h : Nat) (rot : DisplayRotation) : List BusWrite :=
  .cmd (remapCommand rot) :: (clearWrites w h ++ [.cmd (.DisplayOn true)])

theorem initWrites_eq (w h : Nat) (rot : DisplayRotation) :
    initWrites w h rot = (initCommands h).map .cmd ++ initTailWrites w h rot := by
  simp [initWrites, initTailWrites]

theorem initTailWrites_length (w h : Nat) (rot : DisplayRotation) :
    (initTailWrites w h rot).length = 5 + h * w := by
  simp [initTailWrites, clearWrites_length]
  omega

theorem initTail_ok {s : St} {w h : Nat}
    (hwh : s.gm.display.display_size.dimensions = (w, h))
    (h0 : s.fails s.count = false)
    (hclear : noFail s.fails (s.count + 1) (3 + h * w))
    (hlast : s.fails (s.count + 1 + (3 + h * w)) = false) :
    initTail s = (.ok (),
      addWrites s (initTailWrites w h s.gm.display.display_rotation)) := by
  show (bindM (unwrapM (Display.set_rotation s.gm.display.display_rotation)) fun _ =>
    bindM Display.clear fun _ => Command.send (.DisplayOn true)) s = _
  rw [bindM_ok _ (unwrapM_ok (set_rotation_ok _ h0)), setRot_self]
  show (bindM Display.clear fun _ => Command.send (.DisplayOn true))
    (addWrite s (.cmd (remapCommand s.gm.display.display_rotation))) = _
  rw [bindM_ok _ (clear_ok
    (s := addWrite s (.cmd (remapCommand s.gm.display.display_rotation)))
    (by exact hwh) (by exact hclear))]
  show attempt (.cmd (.DisplayOn true))
    (addWrites (addWrite s (.cmd (remapCommand s.gm.display.display_rotation)))
      (clearWrites w h)) = _
  rw [attempt_ok _ (by
    show s.fails (s.count + 1 + (clearWrites w h).length) = false
    rw [clearWrites_length]
    exact hlast)]
  rw [addWrite_eq, addWrite_eq, addWrites_addWrites, addWrites_addWrites]
  simp [initTailWrites]

theorem initTail_fail {s : St} {w h j : Nat}
    (hwh : s.gm.display.display_size.dimensions = (w, h))
    (hj : j < 5 + h * w) (hf : firstFail s.fails s.count j) :
    initTail s =
      (if j = 0 then Outcome.panicked (.unwrapErr .busWriteError)
        else .error .busWriteError,
       addWrites s ((initTailWrites w h s.gm.display.display_rotation).take (j + 1))) := by
  show (bindM (unwrapM (Display.set_rotation s.gm.display.display_rotation)) fun _ =>
    bindM Display.clear fun _ => Command.send (.DisplayOn true)) s = _
  cases j with
  | zero =>
    have h0 : s.fails s.count = true := by simpa using hf.2
    rw [bindM_panicked _ (unwrapM_error (set_rotation_fail _ h0)), setRot_self]
    simp [initTailWrites, addWrite_eq]
  | succ j =>
    have h0 : s.fails s.count = false := by simpa using hf.1 0 (by omega)
    rw [bindM_ok _ (unwrapM_ok (set_rotation_ok _ h0)), setRot_self]
    show (bindM Display.clear fun _ => Command.send (.DisplayOn true))
      (addWrite s (.cmd (remapCommand s.gm.display.display_rotation))) = _
    have hf1 : firstFail s.fails (s.count + 1) j := by
      have h1 : firstFail s.fails s.count (1 + j) := by
        rwa [Nat.add_comm 1 j]
      exact firstFail_shift (k := 1) h1
    rcases Nat.lt_or_ge j (3 + h * w) with hcl | hcl
    · rw [bindM_error _ (clear_fail
        (s := addWrite s (.cmd (remapCommand s.gm.display.display_rotation)))
        (by exact hwh) hcl (by exact hf1))]
      rw [if_neg (by omega), addWrite_eq, addWrites_addWrites]
      simp only [initTailWrites, List.take_succ_cons]
      rw [List.take_append_of_le_length (by rw [clearWrites_length]; omega)]
      rfl
    · obtain rfl : j = 3 + h * w := by omega
      rw [bindM_ok _ (clear_ok
        (s := addWrite s (.cmd (remapCommand s.gm.display.display_rotation)))
        (by exact hwh) (by exact firstFail_noFail hf1))]
      show attempt (.cmd (.DisplayOn true))
        (addWrites (addWrite s (.cmd (remapCommand s.gm.display.display_rotation)))
          (clearWrites w h)) = _
      rw [attempt_fail _ (by
        show s.fails (s.count + 1 + (clearWrites w h).length) = true
        rw [clearWrites_length]
        have := hf.2
        rw [show s.count + 1 + (3 + h * w) = s.count + (3 + h * w + 1) from by omega]
        rwa [show s.count + (3 + h * w + 1) = s.count + (3 + h * w).succ from rfl])]
      rw [if_neg (by omega), addWrite_eq, addWrite_eq, addWrites_addWrites,
        addWrites_addWrites]
      rw [List.take_of_length_le (by rw [initTailWrites_length]; omega)]
      simp [initTailWrites]

theorem init_ok {s : St} {w h : Nat}
    (hwh : s.gm.display.display_size.dimensions = (w, h))
    (hnf : noFail s.fails s.count (21 + h * w)) :
    Display.init s =
      (.ok (), addWrites s (initWrites w h s.gm.display.display_rotation)) := by
  have e : Display.init s =
      (bindM (sendSeq (initCommands h)) fun _ => initTail) s := by
    show (bindM (sendSeq (initCommands s.gm.display.display_size.dimensions.2))
      fun _ => initTail) s = _
    rw [hwh]
  rw [e, bindM_ok _ (sendSeq_ok _ s (by
    rw [initCommands_length]
    exact noFail_mono hnf (by omega)))]
  show initTail (addWrites s ((initCommands h).map .cmd)) = _
  rw [initTail_ok (s := addWrites s ((initCommands h).map .cmd))
    (by exact hwh)
    (by
      show s.fails (s.count + 16) = false
      exact hnf 16 (by omega))
    (by
      intro i hi
      show s.fails (s.count + 16 + 1 + i) = false
      rw [show s.count + 16 + 1 + i = s.count + (17 + i) from by omega]
      exact hnf (17 + i) (by omega))
    (by
      show s.fails (s.count + 16 + 1 + (3 + h * w)) = false
      rw [show s.count + 16 + 1 + (3 + h * w) = s.count + (20 + h * w) from by omega]
      exact hnf (20 + h * w) (by omega))]
  rw [addWrites_addWrites, ← initWrites_eq]
  rfl

theorem init_fail {s : St} {w h j : Nat}
    (hwh : s.gm.display.display_size.dimensions = (w, h))
    (hj : j < 21 + h * w) (hf : firstFail s.fails s.count j) :
    Display.init s =
      (if j = 16 then Outcome.panicked (.unwrapErr .busWriteError)
        else .error .busWriteError,
       addWrites s ((initWrites w h s.gm.display.display_rotation).take (j + 1))) := by
  have e : Display.init s =
      (bindM (sendSeq (initCommands h)) fun _ => initTail) s := by
    show (bindM (sendSeq (initCommands s.gm.display.display_size.dimensions.2))
      fun _ => initTail) s = _
    rw [hwh]
  rcases Nat.lt_or_ge j 16 with h16 | h16
  · rw [e, bindM_error _ (sendSeq_fail _ s j (by rw [initCommands_length]; omega) hf)]
    rw [if_neg (by omega), initWrites_eq,
      List.take_append_of_le_length (by simp [initCommands_length]; omega),
      List.map_take]
  · obtain ⟨j', rfl⟩ : ∃ j', j = 16 + j' := ⟨j - 16, by omega⟩
    rw [e, bindM_ok _ (sendSeq_ok _ s (by
      rw [initCommands_length]
      intro i hi
      exact hf.1 i (by omega)))]
    show initTail (addWrites s ((initCommands h).map .cmd)) = _
    rw [initTail_fail (s := addWrites s ((initCommands h).map .cmd))
      (by exact hwh) (j := j') (by omega)
      (by exact firstFail_shift (k := 16) hf)]
    rw [addWrites_addWrites, initWrites_eq]
    rw [show (16 : Nat) + j' + 1 =
      ((initCommands h).map BusWrite.cmd).length + (j' + 1) from by
      simp [initCommands_length]
      omega]
    rw [List.take_append]
    rcases eq_or_ne j' 0 with rfl | hj0
    · simp only [if_pos rfl, if_pos (by omega : (16 : Nat) + 0 = 16)]
      rfl
    · rw [if_neg hj0, if_neg (by omega)]
      rfl

theorem flushWrites_length (w h : Nat) (b : List Nat) :
    (flushWrites w h b).length = 4 := by
  simp [flushWrites, sdaWrites]

theorem flush_ok {s : St} {w h : Nat}
    (hwh : s.gm.display.display_size.dimensions = (w, h))
    (hnf : noFail s.fails s.count 4) :
    GraphicsMode.flush s = (.ok (), addWrites s (flushWrites w h s.gm.buffer)) := by
  have e : GraphicsMode.flush s =
      (bindM (unwrapM (Display.set_draw_area (0, 0) (w, h))) fun _ =>
        bindM getBuffer fun buffer => unwrapM (Display.draw buffer)) s := by
    show (bindM (unwrapM (Display.set_draw_area (0, 0)
        (s.gm.display.display_size.dimensions.1, s.gm.display.display_size.dimensions.2)))
      fun _ => bindM getBuffer fun buffer => unwrapM (Display.draw buffer)) s = _
    rw [hwh]
  rw [e, bindM_ok _ (unwrapM_ok (set_draw_area_ok _ _ (noFail_mono hnf (by omega))))]
  show unwrapM (attempt (.data s.gm.buffer)) (addWrites s (sdaWrites (0, 0) (w, h))) = _
  rw [unwrapM_ok (attempt_ok _ (by
    show s.fails (s.count + 3) = false
    exact hnf 3 (by omega)))]
  rw [addWrite_eq, addWrites_addWrites]
  rfl

theorem flush_fail {s : St} {w h j : Nat}
    (hwh : s.gm.display.display_size.dimensions = (w, h))
    (hj : j < 4) (hf : firstFail s.fails s.count j) :
    GraphicsMode.flush s =
      (.panicked (.unwrapErr .busWriteError),
       addWrites s ((flushWrites w h s.gm.buffer).take (j + 1))) := by
  have e : GraphicsMode.flush s =
      (bindM (unwrapM (Display.set_draw_area (0, 0) (w, h))) fun _ =>
        bindM getBuffer fun buffer => unwrapM (Display.draw buffer)) s := by
    show (bindM (unwrapM (Display.set_draw_area (0, 0)
        (s.gm.display.display_size.dimensions.1, s.gm.display.display_size.dimensions.2)))
      fun _ => bindM getBuffer fun buffer => unwrapM (Display.draw buffer)) s = _
    rw [hwh]
  rcases Nat.lt_or_ge j 3 with h3 | h3
  · rw [e, bindM_panicked _ (unwrapM_error (set_draw_area_fail _ _ h3 hf))]
    simp only [flushWrites]
    rw [List.take_append_of_le_length (by simp [sdaWrites]; omega)]
  · obtain rfl : j = 3 := by omega
    rw [e, bindM_ok _ (unwrapM_ok (set_draw_area_ok _ _ (firstFail_noFail hf)))]
    show unwrapM (attempt (.data s.gm.buffer)) (addWrites s (sdaWrites (0, 0) (w, h))) = _
    rw [unwrapM_error (attempt_fail _ (by
      show s.fails (s.count + 3) = true
      exact hf.2))]
    rw [addWrite_eq, addWrites_addWrites,
      List.take_of_length_le (by rw [flushWrites_length])]
    rfl

theorem gclear_noflush (s : St) :
    GraphicsMode.clear false s =
      (.ok (), { s with gm.buffer := s.gm.buffer.map (fun _ => 0) }) := rfl

theorem gclear_flush_ok {s : St} {w h : Nat}
    (hwh : s.gm.display.display_size.dimensions = (w, h))
    (hnf : noFail s.fails s.count 4) :
    GraphicsMode.clear true s =
      (.ok (), addWrites { s with gm.buffer := s.gm.buffer.map (fun _ => 0) }
        (flushWrites w h (s.gm.buffer.map (fun _ => 0)))) := by
  show GraphicsMode.flush { s with gm.buffer := s.gm.buffer.map (fun _ => 0) } = _
  exact flush_ok (s := { s with gm.buffer := s.gm.buffer.map (fun _ => 0) })
    (by exact hwh) (by exact hnf)

theorem gclear_flush_fail {s : St} {w h j : Nat}
    (hwh : s.gm.display.display_size.dimensions = (w, h))
    (hj : j < 4) (hf : firstFail s.fails s.count j) :
    GraphicsMode.clear true s =
      (.panicked (.unwrapErr .busWriteError),
       addWrites { s with gm.buffer := s.gm.buffer.map (fun _ => 0) }
        ((flushWrites w h (s.gm.buffer.map (fun _ => 0))).take (j + 1))) := by
  show GraphicsMode.flush { s with gm.buffer := s.gm.buffer.map (fun _ => 0) } = _
  exact flush_fail (s := { s with gm.buffer := s.gm.buffer.map (fun _ => 0) })
    (by exact hwh) hj (by exact hf)

theorem set_pixel_ok {s : St} {x y color : Nat}
    (hidx : (y * 128 + x) * 2 + 1 < s.gm.buffer.length) :
    GraphicsMode.set_pixel x y color s =
      (.ok (), { s with gm.buffer :=
        ((s.gm.buffer.set ((y * 128 + x) * 2) (hiByte color)).set
          ((y * 128 + x) * 2 + 1) (loByte color)) }) := by
  simp only [GraphicsMode.set_pixel]
  rw [if_pos (by omega), if_pos (by rw [List.length_set]; omega)]

/-- The writes the unbuffered `set_pixel` attempts. -/
def setPixelWrites (w h x y color : Nat) (rot : DisplayRotation) : List BusWrite :=
  sdaWrites (u8OfNat (rotCoords rot x y).1, u8OfNat (rotCoords rot x y).2) (w, h) ++
    [.data [hiByte color, loByte color]]

theorem setPixelWrites_length (w h x y color : Nat) (rot : DisplayRotation) :
    (setPixelWrites w h x y color rot).length = 4 := by
  simp [setPixelWrites, sdaWrites]

theorem set_pixel_unbuffered_fail {s : St} {w h j : Nat} (x y color : Nat)
    (hwh : s.gm.display.display_size.dimensions = (w, h))
    (hj : j < 4) (hf : firstFail s.fails s.count j) :
    GraphicsMode.set_pixel_unbuffered x y color s =
      (.panicked (.unwrapErr .busWriteError),
       addWrites s ((setPixelWrites w h x y color s.gm.display.display_rotation).take
        (j + 1))) := by
  have e : GraphicsMode.set_pixel_unbuffered x y color s =
      (bindM (unwrapM (Display.set_draw_area
        (u8OfNat (rotCoords s.gm.display.display_rotation x y).1,
          u8OfNat (rotCoords s.gm.display.display_rotation x y).2) (w, h))) fun _ =>
        unwrapM (Display.draw [hiByte color, loByte color])) s := by
    show (bindM (unwrapM (Display.set_draw_area
      (u8OfNat (rotCoords s.gm.display.display_rotation x y).1,
        u8OfNat (rotCoords s.gm.display.display_rotation x y).2)
      (s.gm.display.display_size.dimensions.1, s.gm.display.display_size.dimensions.2)))
      fun _ => unwrapM (Display.draw [hiByte color, loByte color])) s = _
    rw [hwh]
  rcases Nat.lt_or_ge j 3 with h3 | h3
  · rw [e, bindM_panicked _ (unwrapM_error (set_draw_area_fail _ _ h3 hf))]
    simp only [setPixelWrites]
    rw [List.take_append_of_le_length (by simp [sdaWrites]; omega)]
  · obtain rfl : j = 3 := by omega
    rw [e, bindM_ok _ (unwrapM_ok (set_draw_area_ok _ _ (firstFail_noFail hf)))]
    show unwrapM (attempt (.data [hiByte color, loByte color]))
      (addWrites s (sdaWrites
        (u8OfNat (rotCoords s.gm.display.display_rotation x y).1,
          u8OfNat (rotCoords s.gm.display.display_rotation x y).2) (w, h))) = _
    rw [unwrapM_error (attempt_fail _ (by
      show s.fails (s.count + 3) = true
      exact hf.2))]
    rw [addWrite_eq, addWrites_addWrites,
      List.take_of_length_le (by rw [setPixelWrites_length])]
    rfl

/-! ## Casts and bounds for `flush_area` -/

theorem u8OfNat_eq {n : Nat} (hn : n < 256) : u8OfNat n = n := Nat.mod_eq_of_lt hn

theorem u8OfI32_coe {n : Nat} (hn : n < 256) : u8OfI32 (n : Int) = n := by
  simp [u8OfI32]
  omega

theorem usizeOfI32_coe {n : Nat} (hn : n < 2 ^ 64) : usizeOfI32 (n : Int) = n := by
  simp only [usizeOfI32]
  norm_num
  omega

theorem rowBound {w h tx wd : Nat} (ri : Nat) (h1 : tx + wd ≤ w) (h2 : ri < h) :
    (ri * w + tx) * 2 + 2 * wd ≤ w * h * 2 := by
  have hrow : ri * w + (tx + wd) ≤ ri * w + w := by omega
  have hstep : ri * w + w ≤ h * w := by
    have hmul : (ri + 1) * w ≤ h * w := Nat.mul_le_mul_right w (by omega)
    calc ri * w + w = (ri + 1) * w := by ring
      _ ≤ h * w := hmul
  have hle : ri * w + (tx + wd) ≤ h * w := le_trans hrow hstep
  calc (ri * w + tx) * 2 + 2 * wd = (ri * w + (tx + wd)) * 2 := by ring
    _ ≤ (h * w) * 2 := Nat.mul_le_mul_right 2 hle
    _ = w * h * 2 := by ring

/-- The four writes `flush_area` attempts for the single row `ri` of a
rectangle with left edge `tx` and width `wd` on a panel `w` pixels wide. -/
def flushRowWrites (buffer : List Nat) (w tx wd ri : Nat) : List BusWrite :=
  [.cmd (.Column tx (tx + wd - 1)), .cmd (.Row ri ri), .cmd .WriteRam,
   .data ((buffer.drop ((ri * w + tx) * 2)).take (2 * wd))]

/-- The writes `flush_area` attempts for the rows `ri, ri+1, …` (second
argument: how many rows remain). -/
def flushAreaWrites (buffer : List Nat) (w tx wd : Nat) : Nat → Nat → List BusWrite
  | _, 0 => []
  | ri, rem + 1 =>
    flushRowWrites buffer w tx wd ri ++ flushAreaWrites buffer w tx wd (ri + 1) rem

theorem flushRowWrites_eq (buffer : List Nat) (w tx wd ri : Nat) :
    flushRowWrites buffer w tx wd ri =
      sdaWrites (tx, ri) (tx + wd, ri + 1) ++
        [.data ((buffer.drop ((ri * w + tx) * 2)).take (2 * wd))] := rfl

theorem flushRowWrites_length (buffer : List Nat) (w tx wd ri : Nat) :
    (flushRowWrites buffer w tx wd ri).length = 4 := rfl

theorem flushAreaRow_ok {s : St} {w h tx ty wd ht row : Nat}
    (hw : tx + wd ≤ w) (hh : ty + ht ≤ h) (hrow : row < ht) (hwd : 0 < wd)
    (hw256 : w ≤ 128) (hh256 : h ≤ 128)
    (hbuf : s.gm.buffer.length = w * h * 2)
    (hnf : noFail s.fails s.count 4) :
    flushAreaRow ⟨⟨(tx : Int), (ty : Int)⟩, ⟨wd, ht⟩⟩
        ⟨(tx : Int) + ((wd - 1 : Nat) : Int), (ty : Int) + ((ht - 1 : Nat) : Int)⟩ w row s =
      (.ok (), addWrites s (flushRowWrites s.gm.buffer w tx wd (ty + row))) := by
  have ex : u8OfI32 (tx : Int) = tx := u8OfI32_coe (by omega)
  have exu : usizeOfI32 (tx : Int) = tx := usizeOfI32_coe (by
    have : (128 : Nat) < 2 ^ 64 := by norm_num
    omega)
  have ey : usizeOfI32 (ty : Int) = ty := usizeOfI32_coe (by
    have : (128 : Nat) < 2 ^ 64 := by norm_num
    omega)
  have ebrx : u8OfI32 ((tx : Int) + ((wd - 1 : Nat) : Int)) = tx + (wd - 1) := by
    rw [show (tx : Int) + ((wd - 1 : Nat) : Int) = ((tx + (wd - 1) : Nat) : Int) from by
      push_cast
      ring]
    exact u8OfI32_coe (by omega)
  show (bindM (unwrapM (Display.set_draw_area
      (u8OfI32 (tx : Int), u8OfNat (usizeOfI32 (ty : Int) + row))
      ((u8OfI32 ((tx : Int) + ((wd - 1 : Nat) : Int)) + 1) % 256,
       (u8OfNat (usizeOfI32 (ty : Int) + row) + 1) % 256))) fun _ =>
    bindM getBuffer fun buffer =>
    match sliceOrNone buffer (((usizeOfI32 (ty : Int) + row) * w + usizeOfI32 (tx : Int)) * 2)
        ((((usizeOfI32 (ty : Int) + row) * w + usizeOfI32 (tx : Int)) * 2) + 2 * wd) with
    | some row_in_buffer => unwrapM (Display.draw row_in_buffer)
    | none => fun s => (.panicked .sliceOutOfRange, s)) s = _
  rw [ex, exu, ey, ebrx]
  rw [u8OfNat_eq (show ty + row < 256 by omega)]
  rw [show (tx + (wd - 1) + 1) % 256 = tx + wd from by
    rw [show tx + (wd - 1) + 1 = tx + wd from by omega]
    exact Nat.mod_eq_of_lt (by omega)]
  rw [show (ty + row + 1) % 256 = ty + row + 1 from Nat.mod_eq_of_lt (by omega)]
  rw [bindM_ok _ (unwrapM_ok (set_draw_area_ok _ _ (noFail_mono hnf (by omega))))]
  show (match sliceOrNone s.gm.buffer (((ty + row) * w + tx) * 2)
      ((((ty + row) * w + tx) * 2) + 2 * wd) with
    | some row_in_buffer => unwrapM (Display.draw row_in_buffer)
    | none => fun s => (.panicked .sliceOutOfRange, s))
    (addWrites s (sdaWrites (tx, ty + row) (tx + wd, ty + row + 1))) = _
  have hsl : sliceOrNone s.gm.buffer (((ty + row) * w + tx) * 2)
      ((((ty + row) * w + tx) * 2) + 2 * wd) =
      some ((s.gm.buffer.drop (((ty + row) * w + tx) * 2)).take (2 * wd)) := by
    simp only [sliceOrNone]
    rw [if_pos ⟨by omega, by
      rw [hbuf]
      exact rowBound _ hw (by omega)⟩]
    rw [show (((ty + row) * w + tx) * 2) + 2 * wd - ((ty + row) * w + tx) * 2 = 2 * wd from by
      omega]
  rw [hsl]
  show unwrapM (attempt (.data ((s.gm.buffer.drop (((ty + row) * w + tx) * 2)).take (2 * wd))))
    (addWrites s (sdaWrites (tx, ty + row) (tx + wd, ty + row + 1))) = _
  rw [unwrapM_ok (attempt_ok _ (by
    show s.fails (s.count + 3) = false
    exact hnf 3 (by omega)))]
  rw [addWrite_eq, addWrites_addWrites]
  rfl

theorem flushAreaRow_fail {s : St} {w h tx ty wd ht row j : Nat}
    (hw : tx + wd ≤ w) (hh : ty + ht ≤ h) (hrow : row < ht) (hwd : 0 < wd)
    (hw256 : w ≤ 128) (hh256 : h ≤ 128)
    (hbuf : s.gm.buffer.length = w * h * 2)
    (hj : j < 4) (hf : firstFail s.fails s.count j) :
    flushAreaRow ⟨⟨(tx : Int), (ty : Int)⟩, ⟨wd, ht⟩⟩
        ⟨(tx : Int) + ((wd - 1 : Nat) : Int), (ty : Int) + ((ht - 1 : Nat) : Int)⟩ w row s =
      (.panicked (.unwrapErr .busWriteError),
       addWrites s ((flushRowWrites s.gm.buffer w tx wd (ty + row)).take (j + 1))) := by
  have ex : u8OfI32 (tx : Int) = tx := u8OfI32_coe (by omega)
  have exu : usizeOfI32 (tx : Int) = tx := usizeOfI32_coe (by
    have : (128 : Nat) < 2 ^ 64 := by norm_num
    omega)
  have ey : usizeOfI32 (ty : Int) = ty := usizeOfI32_coe (by
    have : (128 : Nat) < 2 ^ 64 := by norm_num
    omega)
  have ebrx : u8OfI32 ((tx : Int) + ((wd - 1 : Nat) : Int)) = tx + (wd - 1) := by
    rw [show (tx : Int) + ((wd - 1 : Nat) : Int) = ((tx + (wd - 1) : Nat) : Int) from by
      push_cast
      ring]
    exact u8OfI32_coe (by omega)
  show (bindM (unwrapM (Display.set_draw_area
      (u8OfI32 (tx : Int), u8OfNat (usizeOfI32 (ty : Int) + row))
      ((u8OfI32 ((tx : Int) + ((wd - 1 : Nat) : Int)) + 1) % 256,
       (u8OfNat (usizeOfI32 (ty : Int) + row) + 1) % 256))) fun _ =>
    bindM getBuffer fun buffer =>
    match sliceOrNone buffer (((usizeOfI32 (ty : Int) + row) * w + usizeOfI32 (tx : Int)) * 2)
        ((((usizeOfI32 (ty : Int) + row) * w + usizeOfI32 (tx : Int)) * 2) + 2 * wd) with
    | some row_in_buffer => unwrapM (Display.draw row_in_buffer)
    | none => fun s => (.panicked .sliceOutOfRange, s)) s = _
  rw [ex, exu, ey, ebrx]
  rw [u8OfNat_eq (show ty + row < 256 by omega)]
  rw [show (tx + (wd - 1) + 1) % 256 = tx + wd from by
    rw [show tx + (wd - 1) + 1 = tx + wd from by omega]
    exact Nat.mod_eq_of_lt (by omega)]
  rw [show (ty + row + 1) % 256 = ty + row + 1 from Nat.mod_eq_of_lt (by omega)]
  rcases Nat.lt_or_ge j 3 with h3 | h3
  · rw [bindM_panicked _ (unwrapM_error (set_draw_area_fail _ _ h3 hf))]
    rw [flushRowWrites_eq, List.take_append_of_le_length (by simp [sdaWrites]; omega)]
  · obtain rfl : j = 3 := by omega
    rw [bindM_ok _ (unwrapM_ok (set_draw_area_ok _ _ (firstFail_noFail hf)))]
    show (match sliceOrNone s.gm.buffer (((ty + row) * w + tx) * 2)
        ((((ty + row) * w + tx) * 2) + 2 * wd) with
      | some row_in_buffer => unwrapM (Display.draw row_in_buffer)
      | none => fun s => (.panicked .sliceOutOfRange, s))
      (addWrites s (sdaWrites (tx, ty + row) (tx + wd, ty + row + 1))) = _
    have hsl : sliceOrNone s.gm.buffer (((ty + row) * w + tx) * 2)
        ((((ty + row) * w + tx) * 2) + 2 * wd) =
        some ((s.gm.buffer.drop (((ty + row) * w + tx) * 2)).take (2 * wd)) := by
      simp only [sliceOrNone]
      rw [if_pos ⟨by omega, by
        rw [hbuf]
        exact rowBound _ hw (by omega)⟩]
      rw [show (((ty + row) * w + tx) * 2) + 2 * wd - ((ty + row) * w + tx) * 2 = 2 * wd from by
        omega]
    rw [hsl]
    show unwrapM (attempt (.data ((s.gm.buffer.drop (((ty + row) * w + tx) * 2)).take (2 * wd))))
      (addWrites s (sdaWrites (tx, ty + row) (tx + wd, ty + row + 1))) = _
    rw [unwrapM_error (attempt_fail _ (by
      show s.fails (s.count + 3) = true
      exact hf.2))]
    rw [addWrite_eq, addWrites_addWrites,
      List.take_of_length_le (l := flushRowWrites s.gm.buffer w tx wd (ty + row))
        (by rw [flushRowWrites_length])]
    rfl

theorem flushAreaLoop_ok {w h tx ty wd ht : Nat}
    (hw : tx + wd ≤ w) (hh : ty + ht ≤ h) (hwd : 0 < wd)
    (hw256 : w ≤ 128) (hh256 : h ≤ 128) :
    ∀ (rem row : Nat) (s : St), row + rem ≤ ht →
    s.gm.buffer.length = w * h * 2 →
    noFail s.fails s.count (4 * rem) →
    flushAreaLoop ⟨⟨(tx : Int), (ty : Int)⟩, ⟨wd, ht⟩⟩
        ⟨(tx : Int) + ((wd - 1 : Nat) : Int), (ty : Int) + ((ht - 1 : Nat) : Int)⟩ w row rem s =
      (.ok (), addWrites s (flushAreaWrites s.gm.buffer w tx wd (ty + row) rem)) := by
  intro rem
  induction rem with
  | zero =>
    intro row s _ _ _
    simp [flushAreaLoop, pureM, flushAreaWrites, addWrites_nil]
  | succ rem ih =>
    intro row s hrows hbuf hnf
    show (bindM (flushAreaRow ⟨⟨(tx : Int), (ty : Int)⟩, ⟨wd, ht⟩⟩
        ⟨(tx : Int) + ((wd - 1 : Nat) : Int), (ty : Int) + ((ht - 1 : Nat) : Int)⟩ w row)
      fun _ => flushAreaLoop ⟨⟨(tx : Int), (ty : Int)⟩, ⟨wd, ht⟩⟩
        ⟨(tx : Int) + ((wd - 1 : Nat) : Int), (ty : Int) + ((ht - 1 : Nat) : Int)⟩ w
        (row + 1) rem) s = _
    rw [bindM_ok _ (flushAreaRow_ok hw hh (by omega) hwd hw256 hh256 hbuf
      (noFail_mono hnf (by omega)))]
    show flushAreaLoop ⟨⟨(tx : Int), (ty : Int)⟩, ⟨wd, ht⟩⟩
      ⟨(tx : Int) + ((wd - 1 : Nat) : Int), (ty : Int) + ((ht - 1 : Nat) : Int)⟩ w
      (row + 1) rem (addWrites s (flushRowWrites s.gm.buffer w tx wd (ty + row))) = _
    rw [ih (row + 1) _ (by omega) (by exact hbuf) (by
      intro i hi
      show s.fails (s.count + 4 + i) = false
      rw [show s.count + 4 + i = s.count + (4 + i) from by omega]
      exact hnf (4 + i) (by omega))]
    rw [addWrites_addWrites]
    rfl

theorem flushAreaLoop_fail {w h tx ty wd ht : Nat}
    (hw : tx + wd ≤ w) (hh : ty + ht ≤ h) (hwd : 0 < wd)
    (hw256 : w ≤ 128) (hh256 : h ≤ 128) :
    ∀ (rem row j : Nat) (s : St), row + rem ≤ ht →
    s.gm.buffer.length = w * h * 2 →
    j < 4 * rem → firstFail s.fails s.count j →
    flushAreaLoop ⟨⟨(tx : Int), (ty : Int)⟩, ⟨wd, ht⟩⟩
        ⟨(tx : Int) + ((wd - 1 : Nat) : Int), (ty : Int) + ((ht - 1 : Nat) : Int)⟩ w row rem s =
      (.panicked (.unwrapErr .busWriteError),
       addWrites s ((flushAreaWrites s.gm.buffer w tx wd (ty + row) rem).take (j + 1))) := by
  intro rem
  induction rem with
  | zero =>
    intro row j s _ _ hj _
    omega
  | succ rem ih =>
    intro row j s hrows hbuf hj hf
    show (bindM (flushAreaRow ⟨⟨(tx : Int), (ty : Int)⟩, ⟨wd, ht⟩⟩
        ⟨(tx : Int) + ((wd - 1 : Nat) : Int), (ty : Int) + ((ht - 1 : Nat) : Int)⟩ w row)
      fun _ => flushAreaLoop ⟨⟨(tx : Int), (ty : Int)⟩, ⟨wd, ht⟩⟩
        ⟨(tx : Int) + ((wd - 1 : Nat) : Int), (ty : Int) + ((ht - 1 : Nat) : Int)⟩ w
        (row + 1) rem) s = _
    rcases Nat.lt_or_ge j 4 with h4 | h4
    · rw [bindM_panicked _ (flushAreaRow_fail hw hh (by omega) hwd hw256 hh256 hbuf h4 hf)]
      show _ = (Outcome.panicked (.unwrapErr .busWriteError), addWrites s
        ((flushRowWrites s.gm.buffer w tx wd (ty + row) ++
          flushAreaWrites s.gm.buffer w tx wd (ty + row + 1) rem).take (j + 1)))
      rw [List.take_append_of_le_length (by rw [flushRowWrites_length]; omega)]
    · obtain ⟨j', rfl⟩ : ∃ j', j = 4 + j' := ⟨j - 4, by omega⟩
      rw [bindM_ok _ (flushAreaRow_ok hw hh (by omega) hwd hw256 hh256 hbuf
        (fun i hi => hf.1 i (by omega)))]
      show flushAreaLoop ⟨⟨(tx : Int), (ty : Int)⟩, ⟨wd, ht⟩⟩
        ⟨(tx : Int) + ((wd - 1 : Nat) : Int), (ty : Int) + ((ht - 1 : Nat) : Int)⟩ w
        (row + 1) rem (addWrites s (flushRowWrites s.gm.buffer w tx wd (ty + row))) = _
      rw [ih (row + 1) j' _ (by omega) (by exact hbuf) (by omega)
        (by exact firstFail_shift (k := 4) hf)]
      rw [addWrites_addWrites]
      show _ = (Outcome.panicked (.unwrapErr .busWriteError), addWrites s
        ((flushRowWrites s.gm.buffer w tx wd (ty + row) ++
          flushAreaWrites s.gm.buffer w tx wd (ty + row + 1) rem).take (4 + j' + 1)))
      rw [show (4 : Nat) + j' + 1 =
        (flushRowWrites s.gm.buffer w tx wd (ty + row)).length + (j' + 1) from by
        rw [flushRowWrites_length]
        omega]
      rw [List.take_append]
      rfl

theorem flush_area_ok {s : St} {w h tx ty wd ht : Nat}
    (hwh : s.gm.display.display_size.dimensions = (w, h))
    (hw : tx + wd ≤ w) (hh : ty + ht ≤ h) (hwd : 0 < wd) (hht : 0 < ht)
    (hw256 : w ≤ 128) (hh256 : h ≤ 128)
    (hbuf : s.gm.buffer.length = w * h * 2)
    (hnf : noFail s.fails s.count (4 * ht)) :
    GraphicsMode.flush_area ⟨⟨(tx : Int), (ty : Int)⟩, ⟨wd, ht⟩⟩ s =
      (.ok (), addWrites s (flushAreaWrites s.gm.buffer w tx wd ty ht)) := by
  have ebr : Rectangle.bottom_right ⟨⟨(tx : Int), (ty : Int)⟩, ⟨wd, ht⟩⟩ =
      some ⟨(tx : Int) + ((wd - 1 : Nat) : Int), (ty : Int) + ((ht - 1 : Nat) : Int)⟩ := by
    simp [Rectangle.bottom_right, hwd, hht]
  have e : GraphicsMode.flush_area ⟨⟨(tx : Int), (ty : Int)⟩, ⟨wd, ht⟩⟩ s =
      flushAreaLoop ⟨⟨(tx : Int), (ty : Int)⟩, ⟨wd, ht⟩⟩
        ⟨(tx : Int) + ((wd - 1 : Nat) : Int), (ty : Int) + ((ht - 1 : Nat) : Int)⟩ w 0 ht s := by
    show flushAreaLoop ⟨⟨(tx : Int), (ty : Int)⟩, ⟨wd, ht⟩⟩
      ((Rectangle.bottom_right ⟨⟨(tx : Int), (ty : Int)⟩, ⟨wd, ht⟩⟩).getD
        ⟨(tx : Int), (ty : Int)⟩)
      s.gm.display.display_size.dimensions.1 0 ht s = _
    rw [ebr, hwh]
    rfl
  rw [e]
  exact flushAreaLoop_ok hw hh hwd hw256 hh256 ht 0 s (by omega) hbuf hnf

theorem flush_area_fail {s : St} {w h tx ty wd ht j : Nat}
    (hwh : s.gm.display.display_size.dimensions = (w, h))
    (hw : tx + wd ≤ w) (hh : ty + ht ≤ h) (hwd : 0 < wd) (hht : 0 < ht)
    (hw256 : w ≤ 128) (hh256 : h ≤ 128)
    (hbuf : s.gm.buffer.length = w * h * 2)
    (hj : j < 4 * ht) (hf : firstFail s.fails s.count j) :
    GraphicsMode.flush_area ⟨⟨(tx : Int), (ty : Int)⟩, ⟨wd, ht⟩⟩ s =
      (.panicked (.unwrapErr .busWriteError),
       addWrites s ((flushAreaWrites s.gm.buffer w tx wd ty ht).take (j + 1))) := by
  have ebr : Rectangle.bottom_right ⟨⟨(tx : Int), (ty : Int)⟩, ⟨wd, ht⟩⟩ =
      some ⟨(tx : Int) + ((wd - 1 : Nat) : Int), (ty : Int) + ((ht - 1 : Nat) : Int)⟩ := by
    simp [Rectangle.bottom_right, hwd, hht]
  have e : GraphicsMode.flush_area ⟨⟨(tx : Int), (ty : Int)⟩, ⟨wd, ht⟩⟩ s =
      flushAreaLoop ⟨⟨(tx : Int), (ty : Int)⟩, ⟨wd, ht⟩⟩
        ⟨(tx : Int) + ((wd - 1 : Nat) : Int), (ty : Int) + ((ht - 1 : Nat) : Int)⟩ w 0 ht s := by
    show flushAreaLoop ⟨⟨(tx : Int), (ty : Int)⟩, ⟨wd, ht⟩⟩
      ((Rectangle.bottom_right ⟨⟨(tx : Int), (ty : Int)⟩, ⟨wd, ht⟩⟩).getD
        ⟨(tx : Int), (ty : Int)⟩)
      s.gm.display.display_size.dimensions.1 0 ht s = _
    rw [ebr, hwh]
    rfl
  rw [e]
  exact flushAreaLoop_fail hw hh hwd hw256 hh256 ht 0 j s (by omega) hbuf hj hf

/-! ## Preservation of the graphics-mode fields by bus operations -/

/-- Computation `m` never changes the `GraphicsMode` part of the state (display fields
and shadow buffer): it only talks to the bus. -/
def PreservesGm {α : Type} (m : M α) : Prop := ∀ s : St, ((m s).2).gm = s.gm

theorem preservesGm_pureM {α : Type} (a : α) : PreservesGm (pureM a) := fun _ => rfl

theorem preservesGm_attempt (w : BusWrite) : PreservesGm (attempt w) := by
  intro s
  simp only [attempt]
  split
  · rfl
  · rfl

theorem preservesGm_bindM {α β : Type} {m : M α} {f : α → M β}
    (hm : PreservesGm m) (hf : ∀ a, PreservesGm (f a)) : PreservesGm (bindM m f) := by
  intro s
  simp only [bindM]
  rcases hms : m s with ⟨o, s'⟩
  have hs' : s'.gm = s.gm := by
    have h := hm s
    rw [hms] at h
    exact h
  cases o with
  | ok a =>
    show ((f a s').2).gm = s.gm
    rw [hf a s']
    exact hs'
  | error e => exact hs'
  | panicked c => exact hs'

theorem preservesGm_unwrapM {α : Type} {m : M α} (hm : PreservesGm m) :
    PreservesGm (unwrapM m) := by
  intro s
  simp only [unwrapM]
  rcases hms : m s with ⟨o, s'⟩
  have hs' : s'.gm = s.gm := by
    have h := hm s
    rw [hms] at h
    exact h
  cases o with
  | ok a => exact hs'
  | error e => exact hs'
  | panicked c => exact hs'

theorem preservesGm_getSize : PreservesGm getSize := fun _ => rfl

theorem preservesGm_getBuffer : PreservesGm getBuffer := fun _ => rfl

theorem preservesGm_send (c : Command) : PreservesGm (Command.send c) :=
  preservesGm_attempt _

theorem preservesGm_send_data (bytes : List Nat) : PreservesGm (send_data bytes) :=
  preservesGm_attempt _

theorem preservesGm_sendSeq (cs : List Command) : PreservesGm (sendSeq cs) := by
  induction cs with
  | nil => exact preservesGm_pureM ()
  | cons c cs ih => exact preservesGm_bindM (preservesGm_send c) fun _ => ih

theorem preservesGm_set_draw_area (a b : Nat × Nat) :
    PreservesGm (Display.set_draw_area a b) := by
  rw [set_draw_area_eq]
  exact preservesGm_sendSeq _

theorem preservesGm_clearLoop (n : Nat) : PreservesGm (clearLoop n) := by
  induction n with
  | zero => exact preservesGm_pureM ()
  | succ n ih => exact preservesGm_bindM (preservesGm_send_data _) fun _ => ih

theorem preservesGm_clear : PreservesGm Display.clear :=
  preservesGm_bindM preservesGm_getSize fun _ =>
    preservesGm_bindM (preservesGm_set_draw_area _ _) fun _ => preservesGm_clearLoop _

theorem preservesGm_draw (bytes : List Nat) : PreservesGm (Display.draw bytes) :=
  preservesGm_attempt _

theorem preservesGm_flush : PreservesGm GraphicsMode.flush :=
  preservesGm_bindM preservesGm_getSize fun _ =>
    preservesGm_bindM (preservesGm_unwrapM (preservesGm_set_draw_area _ _)) fun _ =>
      preservesGm_bindM preservesGm_getBuffer fun buffer =>
        preservesGm_unwrapM (preservesGm_draw buffer)

theorem preservesGm_flushAreaRow (area : Rectangle) (br : Point) (w row : Nat) :
    PreservesGm (flushAreaRow area br w row) := by
  show PreservesGm (bindM (unwrapM (Display.set_draw_area _ _)) fun _ =>
    bindM getBuffer fun buffer =>
    match sliceOrNone buffer (((usizeOfI32 area.top_left.y + row) * w +
        usizeOfI32 area.top_left.x) * 2)
      (((usizeOfI32 area.top_left.y + row) * w + usizeOfI32 area.top_left.x) * 2 +
        2 * area.size.width) with
    | some row_in_buffer => unwrapM (Display.draw row_in_buffer)
    | none => fun s => (.panicked .sliceOutOfRange, s))
  apply preservesGm_bindM (preservesGm_unwrapM (preservesGm_set_draw_area _ _))
  intro _
  apply preservesGm_bindM preservesGm_getBuffer
  intro buffer
  rcases sliceOrNone buffer (((usizeOfI32 area.top_left.y + row) * w +
      usizeOfI32 area.top_left.x) * 2)
      (((usizeOfI32 area.top_left.y + row) * w + usizeOfI32 area.top_left.x) * 2 +
        2 * area.size.width) with _ | rib
  · exact fun _ => rfl
  · exact preservesGm_unwrapM (preservesGm_draw rib)

theorem preservesGm_flushAreaLoop (area : Rectangle) (br : Point) (w : Nat) :
    ∀ (rem row : Nat), PreservesGm (flushAreaLoop area br w row rem) := by
  intro rem
  induction rem with
  | zero => exact fun _ => preservesGm_pureM ()
  | succ rem ih =>
    intro row
    exact preservesGm_bindM (preservesGm_flushAreaRow area br w row) fun _ => ih (row + 1)

theorem preservesGm_flush_area (area : Rectangle) :
    PreservesGm (GraphicsMode.flush_area area) :=
  preservesGm_bindM preservesGm_getSize fun _ =>
    preservesGm_flushAreaLoop area _ _ _ _

theorem set_pixel_bus (x y color : Nat) (s : St) :
    (GraphicsMode.set_pixel x y color s).2.trace = s.trace ∧
    (GraphicsMode.set_pixel x y color s).2.count = s.count := by
  unfold GraphicsMode.set_pixel
  split
  · split
    · exact ⟨rfl, rfl⟩
    · exact ⟨rfl, rfl⟩
  · exact ⟨rfl, rfl⟩

theorem set_pixel_bufLen (x y color : Nat) (s : St) :
    (GraphicsMode.set_pixel x y color s).2.gm.buffer.length = s.gm.buffer.length := by
  unfold GraphicsMode.set_pixel
  split
  · split
    · simp
    · simp
  · rfl

theorem gclear_bufLen (doFlush : Bool) (s : St) :
    (GraphicsMode.clear doFlush s).2.gm.buffer.length = s.gm.buffer.length := by
  cases doFlush with
  | false =>
    rw [gclear_noflush]
    simp
  | true =>
    show (GraphicsMode.flush { s with gm.buffer := s.gm.buffer.map (fun _ => 0) }).2.gm.buffer.length
      = s.gm.buffer.length
    rw [preservesGm_flush { s with gm.buffer := s.gm.buffer.map (fun _ => 0) }]
    simp

/-! ## Remaining helper lemmas -/

theorem dims_le (sz : DisplaySize) : sz.dimensions.1 ≤ 128 ∧ sz.dimensions.2 ≤ 128 := by
  cases sz <;> exact ⟨by decide, by decide⟩

theorem flushAreaWrites_length (buffer : List Nat) (w tx wd : Nat) :
    ∀ (rem ri : Nat), (flushAreaWrites buffer w tx wd ri rem).length = 4 * rem := by
  intro rem
  induction rem with
  | zero => intro ri; rfl
  | succ rem ih =>
    intro ri
    show (flushRowWrites buffer w tx wd ri ++
      flushAreaWrites buffer w tx wd (ri + 1) rem).length = 4 * (rem + 1)
    rw [List.length_append, flushRowWrites_length, ih]
    omega

theorem set_rotation_state (r : DisplayRotation) (s : St) :
    ((Display.set_rotation r) s).2 =
      addWrite { s with gm.display.display_rotation := r } (.cmd (remapCommand r)) := by
  cases hsf : s.fails s.count with
  | false => rw [set_rotation_ok r hsf]
  | true => rw [set_rotation_fail r hsf]

/-! ## Concrete states used by the witnesses and counterexamples -/

/-- A 128×128 panel at rotation 0 with a zeroed, correctly sized shadow
buffer, on a bus where every write succeeds. -/
def okBusSt : St :=
  { gm := GraphicsMode.new ⟨.display128x128, .Rotate0⟩ (List.replicate (128 * 128 * 2) 0),
    fails := fun _ => false, count := 0, trace := [] }

/-- The same display on a bus where every write fails. -/
def badBusSt : St :=
  { gm := GraphicsMode.new ⟨.display128x128, .Rotate0⟩ (List.replicate (128 * 128 * 2) 0),
    fails := fun _ => true, count := 0, trace := [] }

/-! ## The claims -/

/-- Claim C9: for every display size and rotation, `get_dimensions()`
returns the stored panel (width, height) swapped when the rotation is 90°
or 270°, unswapped when it is 0° or 180°, and it is a pure function of the
stored size and rotation. -/
theorem claim_C9 : ∀ d : Display,
    ((d.display_rotation = .Rotate90 ∨ d.display_rotation = .Rotate270) →
      Display.get_dimensions d =
        (d.display_size.dimensions.2, d.display_size.dimensions.1)) ∧
    ((d.display_rotation = .Rotate0 ∨ d.display_rotation = .Rotate180) →
      Display.get_dimensions d = d.display_size.dimensions) ∧
    (∀ d' : Display, d.display_size = d'.display_size →
      d.display_rotation = d'.display_rotation →
      Display.get_dimensions d = Display.get_dimensions d') := by
  intro d
  refine ⟨?_, ?_, ?_⟩
  · intro hrot
    rcases d with ⟨sz, rot⟩
    rcases hrot with hr | hr <;> (replace hr : rot = _ := hr) <;> subst hr <;>
      cases sz <;> rfl
  · intro hrot
    rcases d with ⟨sz, rot⟩
    rcases hrot with hr | hr <;> (replace hr : rot = _ := hr) <;> subst hr <;>
      cases sz <;> rfl
  · intro d' h1 h2
    rcases d with ⟨sz, rot⟩
    rcases d' with ⟨sz', rot'⟩
    have h1' : sz = sz' := h1
    have h2' : rot = rot' := h2
    subst h1'
    subst h2'
    rfl

/-- Witness for claim C9 at the non-square panel: a 128×96 panel rotated
90° reports (96, 128). -/
theorem claim_C9_witness :
    Display.get_dimensions ⟨.display128x96, .Rotate90⟩ = (96, 128) :=
  (claim_C9 ⟨.display128x96, .Rotate90⟩).1 (Or.inl rfl)

/-- Counterexample to claim C3 as stated: the `OriginDimensions::size`
adapter of a 128×96 panel rotated 90° reports the raw panel size (128, 96)
rather than the post-rotation logical size (96, 128). -/
theorem claim_C3_counterexample :
    GraphicsMode.size (GraphicsMode.new ⟨.display128x96, .Rotate90⟩ []) = (128, 96) ∧
    Display.get_dimensions (GraphicsMode.new ⟨.display128x96, .Rotate90⟩ []).display =
      (96, 128) ∧
    GraphicsMode.size (GraphicsMode.new ⟨.display128x96, .Rotate90⟩ []) ≠
      Display.get_dimensions (GraphicsMode.new ⟨.display128x96, .Rotate90⟩ []).display := by
  refine ⟨rfl, rfl, ?_⟩
  decide

/-- Claim C3 (amended): the size reported to the drawing consumer is the
raw pre-rotation panel geometry for every rotation; it coincides with the
post-rotation logical dimensions exactly when the rotation is 0° or 180°
or the panel is square (128×128). -/
theorem claim_C3_amended : ∀ (d : Display) (b : List Nat),
    GraphicsMode.size (GraphicsMode.new d b) = d.display_size.dimensions ∧
    (GraphicsMode.size (GraphicsMode.new d b) = Display.get_dimensions d ↔
      (d.display_rotation = .Rotate0 ∨ d.display_rotation = .Rotate180 ∨
        d.display_size = .display128x128)) := by
  intro d b
  rcases d with ⟨sz, rot⟩
  cases sz <;> cases rot <;>
    exact ⟨rfl, by
      simp [GraphicsMode.size, GraphicsMode.new, Display.get_dimensions,
        DisplaySize.dimensions]⟩

/-- Counterexample to claim C5 as stated: after `drop_buffer`, a buffered
instance built over a correctly sized 128×128 buffer has buffer length 0,
not panel pixel count × 2. -/
theorem claim_C5_counterexample :
    (GraphicsMode.drop_buffer (GraphicsMode.new ⟨.display128x128, .Rotate0⟩
      (List.replicate (128 * 128 * 2) 0))).buffer.length = 0 ∧
    (0 : Nat) ≠ 128 * 128 * 2 := by
  refine ⟨rfl, by decide⟩

/-- Claim C5 (amended): construction stores the caller-supplied buffer
without any size check; the buffered operations `set_pixel`, `clear`,
`flush` and `flush_area` preserve the buffer length (the last two leave
the buffer untouched), so an instance built with a panel-pixel-count × 2
buffer keeps that even length across those operations; `drop_buffer`
however replaces the buffer with an empty one. -/
theorem claim_C5_amended :
    (∀ (d : Display) (b : List Nat), (GraphicsMode.new d b).buffer = b) ∧
    (∀ (s : St) (x y color : Nat),
      (GraphicsMode.set_pixel x y color s).2.gm.buffer.length = s.gm.buffer.length) ∧
    (∀ (s : St) (doFlush : Bool),
      (GraphicsMode.clear doFlush s).2.gm.buffer.length = s.gm.buffer.length) ∧
    (∀ s : St, (GraphicsMode.flush s).2.gm.buffer = s.gm.buffer) ∧
    (∀ (s : St) (area : Rectangle),
      (GraphicsMode.flush_area area s).2.gm.buffer = s.gm.buffer) ∧
    (∀ g : GraphicsMode, (GraphicsMode.drop_buffer g).buffer = []) := by
  refine ⟨fun d b => rfl, fun s x y c => set_pixel_bufLen x y c s,
    fun s b => gclear_bufLen b s, fun s => ?_, fun s area => ?_, fun g => rfl⟩
  · rw [preservesGm_flush s]
  · rw [preservesGm_flush_area area s]

/-- Claim C6: for each of the four rotation values `set_rotation` emits
exactly one remap command, with flags Rotate0 ↦ (false, false, true),
Rotate90 ↦ (true, true, true), Rotate180 ↦ (false, true, false),
Rotate270 ↦ (true, false, false). -/
theorem claim_C6 : ∀ s : St,
    ((Display.set_rotation .Rotate0 s).2.trace =
      s.trace ++ [.cmd (.SetRemap false false true)]) ∧
    ((Display.set_rotation .Rotate90 s).2.trace =
      s.trace ++ [.cmd (.SetRemap true true true)]) ∧
    ((Display.set_rotation .Rotate180 s).2.trace =
      s.trace ++ [.cmd (.SetRemap false true false)]) ∧
    ((Display.set_rotation .Rotate270 s).2.trace =
      s.trace ++ [.cmd (.SetRemap true false false)]) ∧
    (∀ r : DisplayRotation,
      ((Display.set_rotation r s).2.trace).length = s.trace.length + 1) := by
  intro s
  refine ⟨?_, ?_, ?_, ?_, ?_⟩
  · rw [set_rotation_state]
    rfl
  · rw [set_rotation_state]
    rfl
  · rw [set_rotation_state]
    rfl
  · rw [set_rotation_state]
    rfl
  · intro r
    rw [set_rotation_state]
    show (s.trace ++ [BusWrite.cmd (remapCommand r)]).length = s.trace.length + 1
    simp

/-- Claim C7: `set_draw_area((sx,sy),(ex,ey))` encodes the column-range
end bound as `ex - 1` and the row-range end bound as `ey - 1` in
saturating arithmetic (0 stays 0, no underflow), and follows the two
range commands with the begin-RAM-write command. -/
theorem claim_C7 : ∀ (s : St) (sx sy ex ey : Nat), noFail s.fails s.count 3 →
    Display.set_draw_area (sx, sy) (ex, ey) s =
      (.ok (), addWrites s
        [.cmd (.Column sx (ex - 1)), .cmd (.Row sy (ey - 1)), .cmd .WriteRam]) ∧
    (ex = 0 → ex - 1 = 0) ∧ (ey = 0 → ey - 1 = 0) := by
  intro s sx sy ex ey hnf
  refine ⟨set_draw_area_ok _ _ hnf, ?_, ?_⟩
  · intro hex
    subst hex
    rfl
  · intro hey
    subst hey
    rfl

/-- Witness for claim C7: a degenerate end column of 0 encodes as 0 (no
underflow), on a never-failing bus. -/
theorem claim_C7_witness :
    Display.set_draw_area (5, 7) (0, 9) okBusSt =
      (.ok (), addWrites okBusSt
        [.cmd (.Column 5 0), .cmd (.Row 7 8), .cmd .WriteRam]) ∧
    (0 : Nat) - 1 = 0 := by
  have h := claim_C7 okBusSt 5 7 0 9 (fun i _ => rfl)
  exact ⟨h.1, h.2.1 rfl⟩

/-- Claim C10: `set_rotation` stores the new rotation before transmitting
the remap command; if the transmission fails the stored rotation (hence
`get_rotation`/`get_dimensions`) already reflects the new value — no
rollback. -/
theorem claim_C10 : ∀ (s : St) (r : DisplayRotation),
    (Display.set_rotation r s).2.gm.display.display_rotation = r ∧
    Display.get_rotation (Display.set_rotation r s).2.gm.display = r ∧
    (s.fails s.count = true →
      (Display.set_rotation r s).1 = .error .busWriteError ∧
      Display.get_dimensions (Display.set_rotation r s).2.gm.display =
        Display.get_dimensions ⟨s.gm.display.display_size, r⟩) := by
  intro s r
  refine ⟨?_, ?_, ?_⟩
  · rw [set_rotation_state]
    rfl
  · rw [set_rotation_state]
    rfl
  · intro hfail
    rw [set_rotation_fail r hfail]
    exact ⟨rfl, rfl⟩

/-- Witness for claim C10: on a bus whose first write fails, the stored
rotation still becomes the new value while the operation reports the
transport error. -/
theorem claim_C10_witness :
    badBusSt.fails badBusSt.count = true ∧
    (Display.set_rotation .Rotate90 badBusSt).2.gm.display.display_rotation = .Rotate90 ∧
    (Display.set_rotation .Rotate90 badBusSt).1 = Outcome.error .busWriteError := by
  refine ⟨rfl, (claim_C10 badBusSt .Rotate90).1, ?_⟩
  exact ((claim_C10 badBusSt .Rotate90).2.2 rfl).1

/-- Claim C2: for every panel size (all enumerated panels are 128 pixels
wide, so the source's hard-coded 128 equals the panel width), every
in-range coordinate and every 16-bit color, buffered `set_pixel(x, y, c)`
writes the high byte of `c` at shadow-buffer offset
`(y * panel_width + x) * 2`, the low byte at the following offset, leaves
every other byte unchanged, and issues no bus write. -/
theorem claim_C2 : ∀ (s : St) (x y color : Nat),
    s.gm.buffer.length =
      s.gm.display.display_size.dimensions.1 * s.gm.display.display_size.dimensions.2 * 2 →
    x < s.gm.display.display_size.dimensions.1 →
    y < s.gm.display.display_size.dimensions.2 →
    color < 65536 →
    (GraphicsMode.set_pixel x y color s).1 = .ok () ∧
    (GraphicsMode.set_pixel x y color
      s).2.gm.buffer[(y * s.gm.display.display_size.dimensions.1 + x) * 2]? =
      some (hiByte color) ∧
    (GraphicsMode.set_pixel x y color
      s).2.gm.buffer[(y * s.gm.display.display_size.dimensions.1 + x) * 2 + 1]? =
      some (loByte color) ∧
    (∀ i, i ≠ (y * s.gm.display.display_size.dimensions.1 + x) * 2 →
      i ≠ (y * s.gm.display.display_size.dimensions.1 + x) * 2 + 1 →
      (GraphicsMode.set_pixel x y color s).2.gm.buffer[i]? = s.gm.buffer[i]?) ∧
    (GraphicsMode.set_pixel x y color s).2.trace = s.trace := by
  intro s x y color hbuf hx hy _hc
  have h128 : s.gm.display.display_size.dimensions.1 = 128 := by
    cases s.gm.display.display_size <;> rfl
  rw [h128] at hbuf hx ⊢
  have hidx : (y * 128 + x) * 2 + 1 < s.gm.buffer.length := by
    rw [hbuf]
    omega
  rw [set_pixel_ok hidx]
  refine ⟨rfl, ?_, ?_, ?_, rfl⟩
  · show ((s.gm.buffer.set ((y * 128 + x) * 2) (hiByte color)).set
      ((y * 128 + x) * 2 + 1) (loByte color))[(y * 128 + x) * 2]? = some (hiByte color)
    rw [List.getElem?_set_ne (by omega), List.getElem?_set_self (by omega)]
  · show ((s.gm.buffer.set ((y * 128 + x) * 2) (hiByte color)).set
      ((y * 128 + x) * 2 + 1) (loByte color))[(y * 128 + x) * 2 + 1]? = some (loByte color)
    rw [List.getElem?_set_self (by rw [List.length_set]; omega)]
  · intro i hi1 hi2
    show ((s.gm.buffer.set ((y * 128 + x) * 2) (hiByte color)).set
      ((y * 128 + x) * 2 + 1) (loByte color))[i]? = s.gm.buffer[i]?
    rw [List.getElem?_set_ne (by omega), List.getElem?_set_ne (by omega)]

theorem okBusSt_bufLen : okBusSt.gm.buffer.length = 128 * 128 * 2 := by
  rw [show okBusSt.gm.buffer = List.replicate (128 * 128 * 2) 0 from rfl,
    List.length_replicate]

/-- Witness for claim C2: on a 128×128 panel, `set_pixel(10, 20, 0xF800)`
sets the bytes at offset `(20*128+10)*2` to `0xF8, 0x00`. -/
theorem claim_C2_witness :
    okBusSt.gm.buffer.length = 128 * 128 * 2 ∧
    (GraphicsMode.set_pixel 10 20 0xF800 okBusSt).1 = .ok () ∧
    (GraphicsMode.set_pixel 10 20 0xF800
      okBusSt).2.gm.buffer[(20 * 128 + 10) * 2]? = some 0xF8 ∧
    (GraphicsMode.set_pixel 10 20 0xF800
      okBusSt).2.gm.buffer[(20 * 128 + 10) * 2 + 1]? = some 0x00 := by
  have h := claim_C2 okBusSt 10 20 0xF800 okBusSt_bufLen
    (by decide) (by decide) (by decide)
  exact ⟨okBusSt_bufLen, h.1, h.2.1, h.2.2.1⟩

/-- Claim C4: a successful `init` issues the bring-up commands in the
fixed order: the command-interface unlock first (indices 0, 1), the
multiplex-ratio command with parameter `panel_height - 1` at index 4, the
remap command for the stored rotation at index 16 — before the
framebuffer clear, which starts at index 17 — and the display-on command
last. -/
theorem claim_C4 : ∀ (s : St) (w h : Nat),
    s.gm.display.display_size.dimensions = (w, h) →
    noFail s.fails s.count (21 + h * w) →
    (Display.init s =
      (.ok (), addWrites s (initWrites w h s.gm.display.display_rotation))) ∧
    (initWrites w h s.gm.display.display_rotation).get? 0 =
      some (.cmd (.CommandLock 0x12)) ∧
    (initWrites w h s.gm.display.display_rotation).get? 1 =
      some (.cmd (.CommandLock 0xB1)) ∧
    (initWrites w h s.gm.display.display_rotation).get? 4 =
      some (.cmd (.MuxRatio (h - 1))) ∧
    (initWrites w h s.gm.display.display_rotation).get? 16 =
      some (.cmd (remapCommand s.gm.display.display_rotation)) ∧
    (initWrites w h s.gm.display.display_rotation).get? 17 =
      some (.cmd (.Column 0 (w - 1))) ∧
    (∃ pre, initWrites w h s.gm.display.display_rotation =
      pre ++ [.cmd (.DisplayOn true)]) := by
  intro s w h hwh hnf
  exact ⟨init_ok hwh hnf, rfl, rfl, rfl, rfl, rfl,
    ⟨(initCommands h).map .cmd ++ [.cmd (remapCommand s.gm.display.display_rotation)] ++
      clearWrites w h, rfl⟩⟩

/-- Witness for claim C4: a full successful `init` run on a 128×128 panel
with a never-failing bus; the multiplex-ratio parameter is 127. -/
theorem claim_C4_witness :
    (Display.init okBusSt =
      (.ok (), addWrites okBusSt (initWrites 128 128 .Rotate0))) ∧
    (initWrites 128 128 DisplayRotation.Rotate0).get? 4 =
      some (.cmd (.MuxRatio 127)) := by
  have h := claim_C4 okBusSt 128 128 rfl (fun i _ => rfl)
  exact ⟨h.1, h.2.2.2.1⟩

/-- Claim C8: for every in-bounds rectangle, `flush_area` issues exactly
`height` draw-area/data-write pairs, one per row top-to-bottom (the write
list is the row-by-row concatenation `flushAreaWrites`, 4 writes per
row), and each row's data write streams exactly `2 * width` bytes taken
from the shadow buffer starting at byte offset
`(row_index * panel_width + left) * 2`. -/
theorem claim_C8 : ∀ (s : St) (w h tx ty wd ht : Nat),
    s.gm.display.display_size.dimensions = (w, h) →
    tx + wd ≤ w → ty + ht ≤ h → 0 < wd → 0 < ht →
    s.gm.buffer.length = w * h * 2 →
    noFail s.fails s.count (4 * ht) →
    (GraphicsMode.flush_area ⟨⟨(tx : Int), (ty : Int)⟩, ⟨wd, ht⟩⟩ s =
      (.ok (), addWrites s (flushAreaWrites s.gm.buffer w tx wd ty ht))) ∧
    (flushAreaWrites s.gm.buffer w tx wd ty ht).length = 4 * ht ∧
    (∀ r, r < ht →
      ((s.gm.buffer.drop (((ty + r) * w + tx) * 2)).take (2 * wd)).length = 2 * wd) := by
  intro s w h tx ty wd ht hwh hw hh hwd hht hbuf hnf
  have hle := dims_le s.gm.display.display_size
  rw [hwh] at hle
  refine ⟨flush_area_ok hwh hw hh hwd hht hle.1 hle.2 hbuf hnf,
    flushAreaWrites_length _ _ _ _ _ _, ?_⟩
  intro r hr
  rw [List.length_take, List.length_drop, hbuf]
  have hb := rowBound (h := h) (ty + r) hw (by omega)
  omega

/-- Witness for claim C8: flushing the 3×2 rectangle at (1, 2) of a
128×128 panel issues 4·2 = 8 writes. -/
theorem claim_C8_witness :
    (GraphicsMode.flush_area ⟨⟨(1 : Int), (2 : Int)⟩, ⟨3, 2⟩⟩ okBusSt =
      (.ok (), addWrites okBusSt (flushAreaWrites okBusSt.gm.buffer 128 1 3 2 2))) ∧
    (flushAreaWrites okBusSt.gm.buffer 128 1 3 2 2).length = 8 := by
  have h := claim_C8 okBusSt 128 128 1 2 3 2 rfl (by omega) (by omega) (by omega)
    (by omega) okBusSt_bufLen (fun i _ => rfl)
  exact ⟨h.1, h.2.1⟩

/-- Counterexample to claim C1 as stated: with a bus whose first write
fails, buffered `GraphicsMode::flush` panics (an `unwrap` on the
transport error) instead of returning the error to its caller. -/
theorem claim_C1_counterexample :
    (GraphicsMode.flush badBusSt).1 = Outcome.panicked (.unwrapErr .busWriteError) ∧
    (GraphicsMode.flush badBusSt).1 ≠ Outcome.error .busWriteError := by
  have h1 : (GraphicsMode.flush badBusSt).1 =
      Outcome.panicked (.unwrapErr .busWriteError) := rfl
  refine ⟨h1, ?_⟩
  rw [h1]
  intro hcontra
  exact Outcome.noConfusion hcontra

/-- Claim C1 (amended): when a bus write fails, every listed operation
stops immediately — its trace is the prefix of its write list up to and
including the failing write — but the failure surfaces differently per
operation: `Display::set_draw_area`, `Display::clear` and
`Display::set_rotation` return the error; `Display::init` returns the
error except when its remap write (position 16) fails, where it panics;
buffered `GraphicsMode::flush`, `flush_area`, the unbuffered `set_pixel`
and `clear(flush = true)` panic instead of returning the error; the
buffered `set_pixel` and `clear(flush = false)` issue no bus writes at
all. -/
theorem claim_C1_amended :
    (∀ (s : St) (a b : Nat × Nat) (j : Nat), j < 3 → firstFail s.fails s.count j →
      Display.set_draw_area a b s =
        (.error .busWriteError, addWrites s ((sdaWrites a b).take (j + 1)))) ∧
    (∀ (s : St) (w h j : Nat), s.gm.display.display_size.dimensions = (w, h) →
      j < 3 + h * w → firstFail s.fails s.count j →
      Display.clear s =
        (.error .busWriteError, addWrites s ((clearWrites w h).take (j + 1)))) ∧
    (∀ (s : St) (r : DisplayRotation), s.fails s.count = true →
      Display.set_rotation r s = (.error .busWriteError,
        addWrite { s with gm.display.display_rotation := r } (.cmd (remapCommand r)))) ∧
    (∀ (s : St) (w h j : Nat), s.gm.display.display_size.dimensions = (w, h) →
      j < 21 + h * w → firstFail s.fails s.count j →
      Display.init s =
        (if j = 16 then Outcome.panicked (.unwrapErr .busWriteError)
          else .error .busWriteError,
         addWrites s ((initWrites w h s.gm.display.display_rotation).take (j + 1)))) ∧
    (∀ (s : St) (w h j : Nat), s.gm.display.display_size.dimensions = (w, h) →
      j < 4 → firstFail s.fails s.count j →
      GraphicsMode.flush s = (.panicked (.unwrapErr .busWriteError),
        addWrites s ((flushWrites w h s.gm.buffer).take (j + 1)))) ∧
    (∀ (s : St) (w h tx ty wd ht j : Nat),
      s.gm.display.display_size.dimensions = (w, h) →
      tx + wd ≤ w → ty + ht ≤ h → 0 < wd → 0 < ht →
      s.gm.buffer.length = w * h * 2 →
      j < 4 * ht → firstFail s.fails s.count j →
      GraphicsMode.flush_area ⟨⟨(tx : Int), (ty : Int)⟩, ⟨wd, ht⟩⟩ s =
        (.panicked (.unwrapErr .busWriteError),
         addWrites s ((flushAreaWrites s.gm.buffer w tx wd ty ht).take (j + 1)))) ∧
    (∀ (s : St) (x y color : Nat),
      (GraphicsMode.set_pixel x y color s).2.trace = s.trace ∧
      (GraphicsMode.set_pixel x y color s).2.count = s.count) ∧
    (∀ (s : St) (w h x y color j : Nat),
      s.gm.display.display_size.dimensions = (w, h) →
      j < 4 → firstFail s.fails s.count j →
      GraphicsMode.set_pixel_unbuffered x y color s =
        (.panicked (.unwrapErr .busWriteError),
         addWrites s ((setPixelWrites w h x y color
            s.gm.display.display_rotation).take (j + 1)))) ∧
    (∀ s : St, (GraphicsMode.clear false s).2.trace = s.trace) ∧
    (∀ (s : St) (w h j : Nat), s.gm.display.display_size.dimensions = (w, h) →
      j < 4 → firstFail s.fails s.count j →
      GraphicsMode.clear true s = (.panicked (.unwrapErr .busWriteError),
        addWrites { s with gm.buffer := s.gm.buffer.map (fun _ => 0) }
          ((flushWrites w h (s.gm.buffer.map (fun _ => 0))).take (j + 1)))) := by
  refine ⟨fun s a b j hj hf => set_draw_area_fail a b hj hf,
    fun s w h j hwh hj hf => clear_fail hwh hj hf,
    fun s r hfail => set_rotation_fail r hfail,
    fun s w h j hwh hj hf => init_fail hwh hj hf,
    fun s w h j hwh hj hf => flush_fail hwh hj hf,
    ?_,
    fun s x y color => set_pixel_bus x y color s,
    fun s w h x y color j hwh hj hf => set_pixel_unbuffered_fail x y color hwh hj hf,
    fun s => by rw [gclear_noflush],
    fun s w h j hwh hj hf => gclear_flush_fail hwh hj hf⟩
  intro s w h tx ty wd ht j hwh hw hh hwd hht hbuf hj hf
  have hle := dims_le s.gm.display.display_size
  rw [hwh] at hle
  exact flush_area_fail hwh hw hh hwd hht hle.1 hle.2 hbuf hj hf

/-- Witness for claim C1 (amended), at the flush conjunct: on a bus whose
first write fails, `flush` attempts exactly one write and panics. -/
theorem claim_C1_witness :
    firstFail badBusSt.fails badBusSt.count 0 ∧
    GraphicsMode.flush badBusSt = (Outcome.panicked (.unwrapErr .busWriteError),
      addWrites badBusSt ((flushWrites 128 128 badBusSt.gm.buffer).take 1)) := by
  refine ⟨⟨fun i hi => absurd hi (by omega), rfl⟩, ?_⟩
  exact claim_C1_amended.2.2.2.2.1 badBusSt 128 128 0 rfl (by omega)
    ⟨fun i hi => absurd hi (by omega), rfl⟩

end SSD1351
